import Mathlib

/-!
# Node server of the goofys CSI driver (`pkg/goofys/nodeserver.go`)

A shallow embedding of the four mount-reconciliation handlers
`NodeStageVolume`, `NodeUnstageVolume`, `NodePublishVolume`, `NodeUnpublishVolume`
and of `ensureMountPoint`.

The handlers talk to the outside world only through the `mounter` interface,
`ioutil.ReadDir`, `os.Remove`, `os.Environ`, `d.getStorageAccountAndContainer`
and `exec.Command("goofys", ...).CombinedOutput()`.  These collaborators are
the fields of `World`: arbitrary functions over an arbitrary state `σ`.  Every
call to one of them is recorded, with its answer, in a trace of `Event`s, so a
statement such as "Unmount is invoked exactly once" is a statement about the
trace.  Logging (`klog`) has no effect on the result and is left out.
-/

namespace Goofys

/-! ## Errors and gRPC status codes -/

/-- The gRPC status codes of `google.golang.org/grpc/codes`. -/
inductive Code
  | OK | Canceled | Unknown | InvalidArgument | DeadlineExceeded | NotFound
  | AlreadyExists | PermissionDenied | ResourceExhausted | FailedPrecondition
  | Aborted | OutOfRange | Unimplemented | Internal | Unavailable | DataLoss
  | Unauthenticated
  deriving DecidableEq, Repr

/-- The name printed by `codes.Code.String()`. -/
def Code.String : Code → String
  | .OK => "OK" | .Canceled => "Canceled" | .Unknown => "Unknown"
  | .InvalidArgument => "InvalidArgument" | .DeadlineExceeded => "DeadlineExceeded"
  | .NotFound => "NotFound" | .AlreadyExists => "AlreadyExists"
  | .PermissionDenied => "PermissionDenied" | .ResourceExhausted => "ResourceExhausted"
  | .FailedPrecondition => "FailedPrecondition" | .Aborted => "Aborted"
  | .OutOfRange => "OutOfRange" | .Unimplemented => "Unimplemented"
  | .Internal => "Internal" | .Unavailable => "Unavailable" | .DataLoss => "DataLoss"
  | .Unauthenticated => "Unauthenticated"

/-- A non-nil Go `error`, seen through the three observers the handlers and
their callers use: `err.Error()`, `os.IsNotExist(err)` and `status.Code(err)`. -/
structure GoError where
  /-- The text of `err.Error()`, which is also what `%v` prints. -/
  text : String
  /-- The answer of `os.IsNotExist(err)`. -/
  notExist : Bool
  /-- The answer of `status.Code(err)`; `Unknown` for an error that carries no status. -/
  code : Code
  deriving DecidableEq, Repr

/-- The error `status.Error(c, msg)` (and `status.Errorf` once the message is formatted). -/
def status.Error (c : Code) (msg : String) : GoError :=
  { text := "rpc error: code = " ++ c.String ++ " desc = " ++ msg, notExist := false, code := c }

/-- The error `fmt.Errorf(...)` once the message is formatted: it carries no status. -/
def fmt.Errorf (msg : String) : GoError :=
  { text := msg, notExist := false, code := Code.Unknown }

/-- The test `os.IsNotExist(err)` on a possibly nil error. -/
def os.IsNotExist : Option GoError → Bool
  | none => false
  | some e => e.notExist

/-- Go's `len` of a string: its length in bytes. -/
def len (s : String) : Nat := s.utf8ByteSize

/-! ## Requests and responses -/

/-- The `Mount` access type of a volume capability. -/
structure MountVolume where
  FsType : String
  MountFlags : List String
  deriving DecidableEq, Repr

/-- A `csi.VolumeCapability`; `Mount` is nil when the access type is not a mount. -/
structure VolumeCapability where
  Mount : Option MountVolume
  deriving DecidableEq, Repr

/-- The getter `GetMount()`, defined on a nil receiver as well. -/
def VolumeCapability.GetMount : Option VolumeCapability → Option MountVolume
  | none => none
  | some c => c.Mount

/-- The getter `GetFsType()`, defined on a nil receiver as well. -/
def MountVolume.GetFsType : Option MountVolume → String
  | none => ""
  | some m => m.FsType

/-- The getter `GetMountFlags()`, defined on a nil receiver as well. -/
def MountVolume.GetMountFlags : Option MountVolume → List String
  | none => []
  | some m => m.MountFlags

/-- A Go `map[string]string`, passed through to the attribute resolver untouched. -/
abbrev StringMap := List (String × String)

structure NodeStageVolumeRequest where
  VolumeId : String
  StagingTargetPath : String
  VolumeCapability : Option VolumeCapability
  VolumeContext : StringMap
  Secrets : StringMap
  deriving DecidableEq, Repr

structure NodeUnstageVolumeRequest where
  VolumeId : String
  StagingTargetPath : String
  deriving DecidableEq, Repr

structure NodePublishVolumeRequest where
  VolumeId : String
  StagingTargetPath : String
  TargetPath : String
  VolumeCapability : Option VolumeCapability
  Readonly : Bool
  deriving DecidableEq, Repr

structure NodeUnpublishVolumeRequest where
  VolumeId : String
  TargetPath : String
  deriving DecidableEq, Repr

structure NodeStageVolumeResponse where
  deriving DecidableEq, Repr

structure NodeUnstageVolumeResponse where
  deriving DecidableEq, Repr

structure NodePublishVolumeResponse where
  deriving DecidableEq, Repr

structure NodeUnpublishVolumeResponse where
  deriving DecidableEq, Repr

/-! ## The outside world and the trace of calls -/

/-- What `d.getStorageAccountAndContainer` returns besides its error:
`accountName, accountKey, accountSasToken, containerName`. -/
structure StorageAccount where
  accountName : String
  accountKey : String
  accountSasToken : String
  containerName : String
  deriving DecidableEq, Repr

/-- One call to a collaborator, with the answer it gave. -/
inductive Event
  | IsLikelyNotMountPoint (file : String) (notMnt : Bool) (err : Option GoError)
  | MakeDir (pathname : String) (err : Option GoError)
  | Mount (source target fstype : String) (options : List String) (err : Option GoError)
  | Unmount (target : String) (err : Option GoError)
  | ReadDir (dirname : String) (err : Option GoError)
  | Remove (name : String) (err : Option GoError)
  | getStorageAccountAndContainer (volumeID : String) (attrib secrets : StringMap)
      (res : StorageAccount) (err : Option GoError)
  | CombinedOutput (name : String) (arg : List String) (env : List String)
      (output : String) (err : Option GoError)
  deriving DecidableEq, Repr

/-- The collaborators of the node server, as functions over a world state `σ`.
Nothing is assumed about them. -/
structure World (σ : Type) where
  /-- The method `mounter.IsLikelyNotMountPoint`. -/
  IsLikelyNotMountPoint : String → σ → (Bool × Option GoError) × σ
  /-- The method `mounter.MakeDir`. -/
  MakeDir : String → σ → Option GoError × σ
  /-- The method `mounter.Mount(source, target, fstype, options)`. -/
  Mount : String → String → String → List String → σ → Option GoError × σ
  /-- The method `mounter.Unmount`. -/
  Unmount : String → σ → Option GoError × σ
  /-- The error of `ioutil.ReadDir` (the listing itself is discarded by the callers). -/
  ReadDir : String → σ → Option GoError × σ
  /-- The function `os.Remove`. -/
  Remove : String → σ → Option GoError × σ
  /-- The method `d.getStorageAccountAndContainer(ctx, volumeID, attrib, secrets)`. -/
  getStorageAccountAndContainer :
    String → StringMap → StringMap → σ → (StorageAccount × Option GoError) × σ
  /-- The function `os.Environ`. -/
  Environ : σ → List String
  /-- Running `exec.Command(name, arg...)` with `cmd.Env = env` through `CombinedOutput`. -/
  CombinedOutput : String → List String → List String → σ → (String × Option GoError) × σ
  /-- The `%q` verb of `fmt` on a string (`strconv.Quote`). -/
  quote : String → String

/-- The outcome of running a handler: its return value, the world state it
leaves, and the calls it made, in order. -/
structure Out (σ α : Type) where
  val : α
  state : σ
  trace : List Event

/-- The outcome `o`, with the calls `t` made before it. -/
def Out.after {σ α : Type} (t : List Event) (o : Out σ α) : Out σ α :=
  { o with trace := t ++ o.trace }

/-- A computation that may call the collaborators. -/
def Eff (σ α : Type) : Type := σ → Out σ α

def Eff.pure {σ α : Type} (a : α) : Eff σ α := fun s => ⟨a, s, []⟩

def Eff.bind {σ α β : Type} (m : Eff σ α) (f : α → Eff σ β) : Eff σ β := fun s =>
  (f (m s).val (m s).state).after (m s).trace

instance {σ : Type} : Monad (Eff σ) where
  pure := Eff.pure
  bind := Eff.bind

/-- Perform one call: run it on the state and record it with its answer. -/
def Eff.call {σ α : Type} (op : σ → α × σ) (ev : α → Event) : Eff σ α := fun s =>
  ⟨(op s).1, (op s).2, [ev (op s).1]⟩

/-- Read the world without a recorded call. -/
def Eff.read {σ α : Type} (f : σ → α) : Eff σ α := fun s => ⟨f s, s, []⟩

/-- The call `d.mounter.IsLikelyNotMountPoint(file)`. -/
def mounter.IsLikelyNotMountPoint {σ : Type} (w : World σ) (file : String) :
    Eff σ (Bool × Option GoError) :=
  Eff.call (w.IsLikelyNotMountPoint file) (fun r => Event.IsLikelyNotMountPoint file r.1 r.2)

/-- The call `d.mounter.MakeDir(pathname)`. -/
def mounter.MakeDir {σ : Type} (w : World σ) (pathname : String) : Eff σ (Option GoError) :=
  Eff.call (w.MakeDir pathname) (Event.MakeDir pathname)

/-- The call `d.mounter.Mount(source, target, fstype, options)`. -/
def mounter.Mount {σ : Type} (w : World σ) (source target fstype : String)
    (options : List String) : Eff σ (Option GoError) :=
  Eff.call (w.Mount source target fstype options) (Event.Mount source target fstype options)

/-- The call `d.mounter.Unmount(target)`. -/
def mounter.Unmount {σ : Type} (w : World σ) (target : String) : Eff σ (Option GoError) :=
  Eff.call (w.Unmount target) (Event.Unmount target)

/-- The call `ioutil.ReadDir(dirname)`, keeping only its error. -/
def ioutil.ReadDir {σ : Type} (w : World σ) (dirname : String) : Eff σ (Option GoError) :=
  Eff.call (w.ReadDir dirname) (Event.ReadDir dirname)

/-- The call `os.Remove(name)`. -/
def os.Remove {σ : Type} (w : World σ) (name : String) : Eff σ (Option GoError) :=
  Eff.call (w.Remove name) (Event.Remove name)

/-- The call `d.getStorageAccountAndContainer(ctx, volumeID, attrib, secrets)`. -/
def getStorageAccountAndContainer {σ : Type} (w : World σ) (volumeID : String)
    (attrib secrets : StringMap) : Eff σ (StorageAccount × Option GoError) :=
  Eff.call (w.getStorageAccountAndContainer volumeID attrib secrets)
    (fun r => Event.getStorageAccountAndContainer volumeID attrib secrets r.1 r.2)

/-- The call `os.Environ()`. -/
def os.Environ {σ : Type} (w : World σ) : Eff σ (List String) :=
  Eff.read w.Environ

/-- The calls `cmd := exec.Command(name, arg...)`, `cmd.Env = env`, `cmd.CombinedOutput()`. -/
def exec.CombinedOutput {σ : Type} (w : World σ) (name : String) (arg env : List String) :
    Eff σ (String × Option GoError) :=
  Eff.call (w.CombinedOutput name arg env) (fun r => Event.CombinedOutput name arg env r.1 r.2)

/-! ## String helpers of the Go standard library used by `NodeStageVolume` -/

/-- The predicate `unicode.IsSpace`, which `strings.TrimSpace` trims by. -/
def unicode.IsSpace (c : Char) : Bool :=
  c = '\t' || c = '\n' || c.toNat = 0x0B || c.toNat = 0x0C || c = '\r' || c = ' '
    || c.toNat = 0x85 || c.toNat = 0xA0 || c.toNat = 0x1680
    || (0x2000 ≤ c.toNat && c.toNat ≤ 0x200A)
    || c.toNat = 0x2028 || c.toNat = 0x2029 || c.toNat = 0x202F || c.toNat = 0x205F
    || c.toNat = 0x3000

/-- The function `strings.TrimSpace`: drop leading and trailing white space. -/
def strings.TrimSpace (s : String) : String :=
  String.mk ((s.data.dropWhile unicode.IsSpace).reverse.dropWhile unicode.IsSpace).reverse

/-- Splitting a list of characters at every occurrence of `sep`; `cur` holds
the characters of the current piece, last first. -/
def strings.Split.go (sep : Char) : List Char → List Char → List String
  | [], cur => [String.mk cur.reverse]
  | c :: cs, cur =>
    if c = sep then String.mk cur.reverse :: strings.Split.go sep cs []
    else strings.Split.go sep cs (c :: cur)

/-- The function `strings.Split(s, sep)` for a separator of one character (the
source only splits at `" "`): all pieces between occurrences of `sep`, so one
more piece than there are separators. -/
def strings.Split (s : String) (sep : Char) : List String :=
  strings.Split.go sep s.data []

/-! ## The handlers -/

/-- The argument vector `NodeStageVolume` hands to `exec.Command("goofys", ...)`
(source lines 150-158): the flags are joined with blanks, the result is trimmed,
the endpoint and the target are appended, and the string is split at blanks. -/
def goofysArgs (mountFlags : List String) (containerName accountName targetPath : String) :
    List String :=
  let args := mountFlags.foldl (fun args opt => args ++ opt ++ " ") ""
  let args := strings.TrimSpace args
  let args := args ++ ("wasb://" ++ containerName ++ "@" ++ accountName
    ++ ".blob.core.windows.net " ++ targetPath)
  strings.Split args ' '

/-- The method `Driver.ensureMountPoint`: create mount point if not exists. -/
def ensureMountPoint {σ : Type} (w : World σ) (target : String) : Eff σ (Option GoError) := do
  let r ← mounter.IsLikelyNotMountPoint w target
  let notMnt := r.1
  let err := r.2
  if err.isSome && !os.IsNotExist err then
    return err
  if !notMnt then
    -- testing original mount point, make sure the mount link is valid
    let err ← ioutil.ReadDir w target
    if err.isNone then
      return none
    -- mount link is invalid, now unmount and remount later
    let err ← mounter.Unmount w target
    if err.isSome then
      return err
  let err ← mounter.MakeDir w target
  if err.isSome then
    return err
  return none

/-- The handler `Driver.NodePublishVolume`: mount the volume from staging to target path. -/
def NodePublishVolume {σ : Type} (w : World σ) (req : NodePublishVolumeRequest) :
    Eff σ (Option NodePublishVolumeResponse × Option GoError) := do
  if req.VolumeCapability.isNone then
    return (none, some (status.Error Code.InvalidArgument "Volume capability missing in request"))
  if len req.VolumeId == 0 then
    return (none, some (status.Error Code.InvalidArgument "Volume ID missing in request"))
  if len req.TargetPath == 0 then
    return (none, some (status.Error Code.InvalidArgument "Target path missing in request"))
  let source := req.StagingTargetPath
  if len source == 0 then
    return (none, some (status.Error Code.InvalidArgument "Staging target not provided"))
  let target := req.TargetPath
  if len target == 0 then
    return (none, some (status.Error Code.InvalidArgument "Target path not provided"))
  let mountOptions := ["bind"]
  let mountOptions := if req.Readonly then mountOptions ++ ["ro"] else mountOptions
  match ← ensureMountPoint w target with
  | some err =>
    return (none, some (status.Error Code.Internal
      ("Could not mount target " ++ w.quote target ++ ": " ++ err.text)))
  | none =>
    match ← mounter.Mount w source target "" mountOptions with
    | some err =>
      match ← os.Remove w target with
      | some removeErr =>
        return (none, some (status.Error Code.Internal
          ("Could not remove mount target " ++ w.quote target ++ ": " ++ removeErr.text)))
      | none =>
        return (none, some (status.Error Code.Internal
          ("Could not mount " ++ w.quote source ++ " at " ++ w.quote target ++ ": " ++ err.text)))
    | none =>
      return (some {}, none)

/-- The handler `Driver.NodeUnpublishVolume`: unmount the volume from the target path. -/
def NodeUnpublishVolume {σ : Type} (w : World σ) (req : NodeUnpublishVolumeRequest) :
    Eff σ (Option NodeUnpublishVolumeResponse × Option GoError) := do
  if len req.VolumeId == 0 then
    return (none, some (status.Error Code.InvalidArgument "Volume ID missing in request"))
  if len req.TargetPath == 0 then
    return (none, some (status.Error Code.InvalidArgument "Target path missing in request"))
  match ← mounter.Unmount w req.TargetPath with
  | some err =>
    return (none, some (status.Error Code.Internal err.text))
  | none =>
    return (some {}, none)

/-- The handler `Driver.NodeStageVolume`: mount the volume to a staging path. -/
def NodeStageVolume {σ : Type} (w : World σ) (req : NodeStageVolumeRequest) :
    Eff σ (Option NodeStageVolumeResponse × Option GoError) := do
  if len req.VolumeId == 0 then
    return (none, some (status.Error Code.InvalidArgument "Volume ID missing in request"))
  let targetPath := req.StagingTargetPath
  if len targetPath == 0 then
    return (none, some (status.Error Code.InvalidArgument "Staging target not provided"))
  let volumeCapability := req.VolumeCapability
  if volumeCapability.isNone then
    return (none, some (status.Error Code.InvalidArgument "Volume capability not provided"))
  let r ← mounter.IsLikelyNotMountPoint w targetPath
  let notMnt := r.1
  let err := r.2
  if err.isSome && !os.IsNotExist err then
    return (none, err)
  let err ← mounter.MakeDir w targetPath
  if err.isSome then
    return (none, err)
  if !notMnt then
    -- testing original mount point, make sure the mount link is valid
    let err ← ioutil.ReadDir w targetPath
    if err.isNone then
      return (some {}, none)
    -- mount link is invalid, now unmount and remount later
    let err ← mounter.Unmount w targetPath
    if err.isSome then
      return (none, err)
  let volumeID := req.VolumeId
  -- `fsType` (line 139) is only logged
  let mountFlags := MountVolume.GetMountFlags (VolumeCapability.GetMount req.VolumeCapability)
  let attrib := req.VolumeContext
  let secrets := req.Secrets
  let r ← getStorageAccountAndContainer w volumeID attrib secrets
  let accountName := r.1.accountName
  let accountKey := r.1.accountKey
  let containerName := r.1.containerName
  if r.2.isSome then
    return (none, r.2)
  -- Get mountOptions that the volume will be formatted and mounted with
  let args := goofysArgs mountFlags containerName accountName targetPath
  let environ ← os.Environ w
  let env := environ ++ ["AZURE_STORAGE_ACCOUNT=" ++ accountName]
  let env := env ++ ["AZURE_STORAGE_KEY=" ++ accountKey]
  let r ← exec.CombinedOutput w "goofys" args env
  let output := r.1
  match r.2 with
  | some execErr =>
    let err := fmt.Errorf ("Mount failed with error: " ++ execErr.text ++ ", output: " ++ output)
    let r ← mounter.IsLikelyNotMountPoint w targetPath
    let notMnt := r.1
    let mntErr := r.2
    if mntErr.isSome then
      return (none, some err)
    if !notMnt then
      let mntErr ← mounter.Unmount w targetPath
      if mntErr.isSome then
        return (none, some err)
      let r ← mounter.IsLikelyNotMountPoint w targetPath
      let notMnt := r.1
      let mntErr := r.2
      if mntErr.isSome then
        return (none, some err)
      if !notMnt then
        -- This is very odd, we don't expect it.  We'll try again next sync loop.
        return (none, some err)
    let _ ← os.Remove w targetPath
    return (none, some err)
  | none =>
    return (some {}, none)

/-- The handler `Driver.NodeUnstageVolume`: unmount the volume from the staging path. -/
def NodeUnstageVolume {σ : Type} (w : World σ) (req : NodeUnstageVolumeRequest) :
    Eff σ (Option NodeUnstageVolumeResponse × Option GoError) := do
  let volumeID := req.VolumeId
  if len volumeID == 0 then
    return (none, some (status.Error Code.InvalidArgument "Volume ID not provided"))
  let target := req.StagingTargetPath
  if len target == 0 then
    return (none, some (status.Error Code.InvalidArgument "Staging target not provided"))
  match ← mounter.Unmount w target with
  | some err =>
    return (none, some (status.Error Code.Internal
      ("Could not unmount target " ++ w.quote target ++ ": " ++ err.text)))
  | none =>
    return (some {}, none)

/-! ## Observations on traces -/

/-- Is the event a call of `mounter.Unmount`? -/
def Event.isUnmount : Event → Bool
  | .Unmount _ _ => true
  | _ => false

/-- Is the event a call of `mounter.Mount`? -/
def Event.isMount : Event → Bool
  | .Mount _ _ _ _ _ => true
  | _ => false

/-- Is the event a call of `os.Remove`? -/
def Event.isRemove : Event → Bool
  | .Remove _ _ => true
  | _ => false

/-- Is the event a run of an external executable? -/
def Event.isExec : Event → Bool
  | .CombinedOutput _ _ _ _ _ => true
  | _ => false

/-- Is the event a call of `d.getStorageAccountAndContainer`? -/
def Event.isResolve : Event → Bool
  | .getStorageAccountAndContainer _ _ _ _ _ => true
  | _ => false

/-- The events before the first run of an executable (all of them when there is none). -/
def beforeExec (t : List Event) : List Event :=
  t.takeWhile (fun e => !e.isExec)

/-- The events after the first run of an executable (none when there is none). -/
def afterExec (t : List Event) : List Event :=
  (t.dropWhile (fun e => !e.isExec)).tail

/-- The error `NodeStageVolume` builds when the mount executable fails with
`execErr` after printing `output` (source line 165). -/
def mountFailed (execErr : GoError) (output : String) : GoError :=
  fmt.Errorf ("Mount failed with error: " ++ execErr.text ++ ", output: " ++ output)

/-! ## The tail of `NodeStageVolume`, cut in two for the proofs

`NodeStageVolume` above is the embedding of the source function.  The two
definitions below are its last lines taken on their own; `NodeStageVolume_eq`
shows that the function is its first lines followed by them. -/

/-- Source lines 167-189 of `NodeStageVolume`: what is done after the mount
executable failed, `err` being the error built on line 165. -/
def NodeStageVolume.cleanup {σ : Type} (w : World σ) (targetPath : String) (err : GoError) :
    Eff σ (Option NodeStageVolumeResponse × Option GoError) := do
  let r ← mounter.IsLikelyNotMountPoint w targetPath
  let notMnt := r.1
  let mntErr := r.2
  if mntErr.isSome then
    return (none, some err)
  if !notMnt then
    let mntErr ← mounter.Unmount w targetPath
    if mntErr.isSome then
      return (none, some err)
    let r ← mounter.IsLikelyNotMountPoint w targetPath
    let notMnt := r.1
    let mntErr := r.2
    if mntErr.isSome then
      return (none, some err)
    if !notMnt then
      -- This is very odd, we don't expect it.  We'll try again next sync loop.
      return (none, some err)
  let _ ← os.Remove w targetPath
  return (none, some err)

/-- Source lines 138-192 of `NodeStageVolume`: resolve the account, build the
arguments, run the mount executable, and clean up when it fails. -/
def NodeStageVolume.mountStep {σ : Type} (w : World σ) (req : NodeStageVolumeRequest) :
    Eff σ (Option NodeStageVolumeResponse × Option GoError) := do
  let targetPath := req.StagingTargetPath
  let volumeID := req.VolumeId
  let mountFlags := MountVolume.GetMountFlags (VolumeCapability.GetMount req.VolumeCapability)
  let attrib := req.VolumeContext
  let secrets := req.Secrets
  let r ← getStorageAccountAndContainer w volumeID attrib secrets
  let accountName := r.1.accountName
  let accountKey := r.1.accountKey
  let containerName := r.1.containerName
  if r.2.isSome then
    return (none, r.2)
  let args := goofysArgs mountFlags containerName accountName targetPath
  let environ ← os.Environ w
  let env := environ ++ ["AZURE_STORAGE_ACCOUNT=" ++ accountName]
  let env := env ++ ["AZURE_STORAGE_KEY=" ++ accountKey]
  let r ← exec.CombinedOutput w "goofys" args env
  let output := r.1
  match r.2 with
  | some execErr => NodeStageVolume.cleanup w targetPath (mountFailed execErr output)
  | none =>
    return (some {}, none)

/-- The six sequences of calls `NodeStageVolume` can make on the path `p` after
the mount executable failed. -/
def cleanupShape (p : String) (t : List Event) : Prop :=
  (∃ nm e, t = [Event.IsLikelyNotMountPoint p nm (some e)]) ∨
  (∃ r, t = [Event.IsLikelyNotMountPoint p true none, Event.Remove p r]) ∨
  (∃ e, t = [Event.IsLikelyNotMountPoint p false none, Event.Unmount p (some e)]) ∨
  (∃ nm e, t = [Event.IsLikelyNotMountPoint p false none, Event.Unmount p none,
      Event.IsLikelyNotMountPoint p nm (some e)]) ∨
  (t = [Event.IsLikelyNotMountPoint p false none, Event.Unmount p none,
      Event.IsLikelyNotMountPoint p false none]) ∨
  (∃ r, t = [Event.IsLikelyNotMountPoint p false none, Event.Unmount p none,
      Event.IsLikelyNotMountPoint p true none, Event.Remove p r])

/-- The three ways the tail of `NodeStageVolume` can go: the resolver fails, the
mount executable succeeds, or it fails and the clean-up follows. -/
def mountShape (p : String) (val : Option NodeStageVolumeResponse × Option GoError)
    (t : List Event) : Prop :=
  (∃ v a c acct e, t = [Event.getStorageAccountAndContainer v a c acct (some e)] ∧
      val = (none, some e)) ∨
  (∃ v a c acct args env output,
      t = [Event.getStorageAccountAndContainer v a c acct none,
           Event.CombinedOutput "goofys" args env output none] ∧ val = (some {}, none)) ∨
  (∃ v a c acct args env output e post,
      t = [Event.getStorageAccountAndContainer v a c acct none,
           Event.CombinedOutput "goofys" args env output (some e)] ++ post ∧
      val = (none, some (mountFailed e output)) ∧ cleanupShape p post)

/-- The path is confirmed clean after a failed mount: the probe that follows
the failure succeeds and reports "not mounted", or it reports "mounted", the
rollback `Unmount` succeeds and the second probe succeeds and reports "not mounted". -/
def confirmedClean (p : String) (post : List Event) : Prop :=
  post.head? = some (Event.IsLikelyNotMountPoint p true none) ∨
  post.take 3 = [Event.IsLikelyNotMountPoint p false none, Event.Unmount p none,
      Event.IsLikelyNotMountPoint p true none]

/-- The five ways `ensureMountPoint` can go on the path `p`, with the value it returns. -/
def ensureShape (p : String) (val : Option GoError) (t : List Event) : Prop :=
  (∃ nm e, t = [Event.IsLikelyNotMountPoint p nm (some e)] ∧ val = some e) ∨
  (∃ pe, t = [Event.IsLikelyNotMountPoint p false pe, Event.ReadDir p none] ∧ val = none) ∨
  (∃ pe re ue, t = [Event.IsLikelyNotMountPoint p false pe, Event.ReadDir p (some re),
      Event.Unmount p (some ue)] ∧ val = some ue) ∨
  (∃ pe re r, t = [Event.IsLikelyNotMountPoint p false pe, Event.ReadDir p (some re),
      Event.Unmount p none, Event.MakeDir p r] ∧ val = r) ∨
  (∃ pe r, t = [Event.IsLikelyNotMountPoint p true pe, Event.MakeDir p r] ∧ val = r)

/-- The mount options of `NodePublishVolume` (source lines 57-60). -/
def publishOptions (req : NodePublishVolumeRequest) : List String :=
  if req.Readonly then ["bind"] ++ ["ro"] else ["bind"]

/-- The two ways `NodeStageVolume` gets from the world state `s` to the call of
the resolver on line 144, making the calls `pre` and leaving the state `sR`:
nothing is mounted and `MakeDir` succeeds, or the mount is stale, `MakeDir`
succeeds and the recovery `Unmount` succeeds. -/
def stagePrefix {σ : Type} (w : World σ) (p : String) (s sR : σ) (pre : List Event) : Prop :=
  (∃ pe s1, w.IsLikelyNotMountPoint p s = ((true, pe), s1) ∧
      (pe.isSome && !os.IsNotExist pe) = false ∧
      w.MakeDir p s1 = (none, sR) ∧
      pre = [Event.IsLikelyNotMountPoint p true pe, Event.MakeDir p none]) ∨
  (∃ pe s1 s2 re s3, w.IsLikelyNotMountPoint p s = ((false, pe), s1) ∧
      (pe.isSome && !os.IsNotExist pe) = false ∧
      w.MakeDir p s1 = (none, s2) ∧
      w.ReadDir p s2 = (some re, s3) ∧
      w.Unmount p s3 = (none, sR) ∧
      pre = [Event.IsLikelyNotMountPoint p false pe, Event.MakeDir p none,
             Event.ReadDir p (some re), Event.Unmount p none])

/-- The characters of the flags, each followed by a blank, then `tail`. -/
def glue : List String → List Char → List Char
  | [], tail => tail
  | f :: fs, tail => f.data ++ ' ' :: glue fs tail

/-! ## Concrete worlds -/

/-- A world without state in which every collaborator always gives the same answer. -/
def constWorld (probe : Bool × Option GoError) (mkdir mnt umnt rd rm : Option GoError)
    (acct : StorageAccount × Option GoError) (run : String × Option GoError) : World Unit where
  IsLikelyNotMountPoint := fun _ s => (probe, s)
  MakeDir := fun _ s => (mkdir, s)
  Mount := fun _ _ _ _ s => (mnt, s)
  Unmount := fun _ s => (umnt, s)
  ReadDir := fun _ s => (rd, s)
  Remove := fun _ s => (rm, s)
  getStorageAccountAndContainer := fun _ _ _ s => (acct, s)
  Environ := fun _ => []
  CombinedOutput := fun _ _ _ s => (run, s)
  quote := fun s => "\"" ++ s ++ "\""

/-- An input/output error as the operating system reports it: no status attached. -/
def EIO : GoError := ⟨"input/output error", false, Code.Unknown⟩

/-- A storage account for the examples. -/
def acct : StorageAccount := ⟨"acct", "key", "", "cont"⟩

/-- A world in which the path is a healthy mount and every call succeeds. -/
def healthyWorld : World Unit :=
  constWorld (false, none) none none none none none (acct, none) ("", none)

/-- A world in which the path is a healthy mount (the probe reports a mount
point, listing succeeds) but `MakeDir` fails. -/
def makeDirFailsOnValidMount : World Unit :=
  constWorld (false, none) (some EIO) none none none none (acct, none) ("", none)

/-- A world in which the path is a stale mount (the probe reports a mount
point, listing fails) and every other call succeeds. -/
def staleWorld : World Unit :=
  constWorld (false, none) none none none (some EIO) none (acct, none) ("", none)

/-- A world in which the path is a stale mount and `MakeDir` fails. -/
def makeDirFailsOnStaleMount : World Unit :=
  constWorld (false, none) (some EIO) none none (some EIO) none (acct, none) ("", none)

/-- A world in which nothing is mounted and both the mount executable and
`mounter.Mount` fail, the executable after printing `boom`. -/
def mountFailsWorld : World Unit :=
  constWorld (true, none) none (some EIO) none none none (acct, none) ("boom", some EIO)

/-- A world in which nothing is mounted and every call succeeds. -/
def freshWorld : World Unit :=
  constWorld (true, none) none none none none none (acct, none) ("", none)

/-- A world in which the probe fails with an input/output error. -/
def probeFailsWorld : World Unit :=
  constWorld (true, some EIO) none none none none none (acct, none) ("", none)

/-- A world in which nothing is mounted and `MakeDir` fails. -/
def makeDirFailsWorld : World Unit :=
  constWorld (true, none) (some EIO) none none none none (acct, none) ("", none)

/-- A world in which every `Unmount` fails. -/
def unmountFailsWorld : World Unit :=
  constWorld (true, none) none none (some EIO) none none (acct, none) ("", none)

/-- A world with one bit of state, "the path is mounted": the probe and the
listing read it, a successful run of the mount executable and `Mount` set it,
`Unmount` clears it, and every call succeeds. -/
def simWorld : World Bool where
  IsLikelyNotMountPoint := fun _ mounted => ((!mounted, none), mounted)
  MakeDir := fun _ mounted => (none, mounted)
  Mount := fun _ _ _ _ _ => (none, true)
  Unmount := fun _ _ => (none, false)
  ReadDir := fun _ mounted => (none, mounted)
  Remove := fun _ mounted => (none, mounted)
  getStorageAccountAndContainer := fun _ _ _ mounted => ((acct, none), mounted)
  Environ := fun _ => []
  CombinedOutput := fun _ _ _ _ => (("", none), true)
  quote := fun s => "\"" ++ s ++ "\""

/-- A world with the same mount bit in which the mount executable fails after
the kernel mount is in place: the run returns an error and leaves the path
mounted.  `Unmount` clears the bit and succeeds. -/
def partialMountWorld : World Bool where
  IsLikelyNotMountPoint := fun _ mounted => ((!mounted, none), mounted)
  MakeDir := fun _ mounted => (none, mounted)
  Mount := fun _ _ _ _ _ => (none, true)
  Unmount := fun _ _ => (none, false)
  ReadDir := fun _ mounted => (none, mounted)
  Remove := fun _ mounted => (none, mounted)
  getStorageAccountAndContainer := fun _ _ _ mounted => ((acct, none), mounted)
  Environ := fun _ => []
  CombinedOutput := fun _ _ _ _ => (("boom", some EIO), true)
  quote := fun s => "\"" ++ s ++ "\""

/-- A stage request without mount flags (scenario A of the specification). -/
def stageReqNoFlags : NodeStageVolumeRequest :=
  ⟨"v1", "/var/lib/stage/v1", some ⟨some ⟨"", []⟩⟩, [], []⟩

/-- A stage request with one mount flag. -/
def stageReq : NodeStageVolumeRequest :=
  ⟨"v1", "/stage", some ⟨some ⟨"", ["--uid=1000"]⟩⟩, [], []⟩

/-- A publish request. -/
def publishReq : NodePublishVolumeRequest :=
  ⟨"v1", "/stage", "/target", some ⟨some ⟨"", []⟩⟩, false⟩

/-- A publish request with an empty staging path. -/
def publishReqNoStaging : NodePublishVolumeRequest :=
  ⟨"v1", "", "/target", some ⟨some ⟨"", []⟩⟩, false⟩

/-- An unstage request. -/
def unstageReq : NodeUnstageVolumeRequest := ⟨"v1", "/stage"⟩

/-! ## Running a computation: rewriting rules -/

theorem len_eq_zero_iff (s : String) : len s = 0 ↔ s = "" := by
  rcases s with ⟨cs⟩
  cases cs with
  | nil => exact ⟨fun _ => rfl, fun _ => rfl⟩
  | cons c cs =>
    have hc := Char.utf8Size_pos c
    constructor
    · intro h
      have h2 : String.utf8ByteSize.go cs + c.utf8Size = 0 := h
      omega
    · intro h
      have h3 : (c :: cs).length = 0 := congrArg String.length h
      simp at h3

section run
variable {σ α β : Type}

theorem Eff.bind_run (m : Eff σ α) (f : α → Eff σ β) (s : σ) :
    (m >>= f) s = (f (m s).val (m s).state).after (m s).trace := rfl

theorem Eff.pure_run (a : α) (s : σ) : (Pure.pure a : Eff σ α) s = ⟨a, s, []⟩ := rfl

theorem Eff.call_run (op : σ → α × σ) (ev : α → Event) (s : σ) :
    Eff.call op ev s = ⟨(op s).1, (op s).2, [ev (op s).1]⟩ := rfl

theorem Eff.read_run (f : σ → α) (s : σ) : Eff.read f s = ⟨f s, s, []⟩ := rfl

theorem Eff.ite_run (c : Prop) [Decidable c] (m1 m2 : Eff σ α) (s : σ) :
    (if c then m1 else m2 : Eff σ α) s = if c then m1 s else m2 s := by
  split <;> rfl

end run

/-! ## The shape of a run of `NodeStageVolume` -/

theorem NodeStageVolume_eq {σ : Type} (w : World σ) (req : NodeStageVolumeRequest) :
    NodeStageVolume w req = (do
      if len req.VolumeId == 0 then
        return (none, some (status.Error Code.InvalidArgument "Volume ID missing in request"))
      let targetPath := req.StagingTargetPath
      if len targetPath == 0 then
        return (none, some (status.Error Code.InvalidArgument "Staging target not provided"))
      let volumeCapability := req.VolumeCapability
      if volumeCapability.isNone then
        return (none, some (status.Error Code.InvalidArgument "Volume capability not provided"))
      let r ← mounter.IsLikelyNotMountPoint w targetPath
      let notMnt := r.1
      let err := r.2
      if err.isSome && !os.IsNotExist err then
        return (none, err)
      let err ← mounter.MakeDir w targetPath
      if err.isSome then
        return (none, err)
      if !notMnt then
        let err ← ioutil.ReadDir w targetPath
        if err.isNone then
          return (some {}, none)
        let err ← mounter.Unmount w targetPath
        if err.isSome then
          return (none, err)
      NodeStageVolume.mountStep w req) := by
  rfl

theorem cleanup_spec {σ : Type} (w : World σ) (p : String) (err : GoError) (s : σ) :
    (NodeStageVolume.cleanup w p err s).val = (none, some err) ∧
    cleanupShape p (NodeStageVolume.cleanup w p err s).trace := by
  unfold NodeStageVolume.cleanup
  simp only [Eff.bind_run, Eff.pure_run, Eff.ite_run, mounter.IsLikelyNotMountPoint,
    mounter.Unmount, os.Remove, Eff.call_run]
  rcases h1 : w.IsLikelyNotMountPoint p s with ⟨⟨nm, pe⟩, s1⟩
  rcases h2 : w.Unmount p s1 with ⟨ue, s2⟩
  rcases h3 : w.IsLikelyNotMountPoint p s2 with ⟨⟨nm2, pe2⟩, s3⟩
  cases nm <;> cases pe <;> cases ue <;> cases nm2 <;> cases pe2 <;>
    simp [Out.after, h2, h3, cleanupShape]

theorem mountStep_spec {σ : Type} (w : World σ) (req : NodeStageVolumeRequest) (s : σ) :
    mountShape req.StagingTargetPath (NodeStageVolume.mountStep w req s).val
      (NodeStageVolume.mountStep w req s).trace := by
  unfold NodeStageVolume.mountStep
  simp only [Eff.bind_run, Eff.pure_run, Eff.ite_run, os.Environ, exec.CombinedOutput,
    getStorageAccountAndContainer, Eff.call_run, Eff.read_run]
  rcases h1 : w.getStorageAccountAndContainer req.VolumeId req.VolumeContext req.Secrets s
    with ⟨⟨acct, re⟩, s1⟩
  cases re with
  | some e => simp [Out.after, mountShape]
  | none =>
    simp only [Option.isSome_none, Bool.false_eq_true, if_false]
    generalize hargs : goofysArgs _ _ _ _ = args
    generalize henv : w.Environ s1 ++ _ ++ _ = env
    rcases h2 : w.CombinedOutput "goofys" args env s1 with ⟨⟨output, ee⟩, s2⟩
    cases ee with
    | none => simp [Out.after, mountShape, Eff.pure_run]
    | some e =>
      have hc := cleanup_spec w req.StagingTargetPath (mountFailed e output) s2
      simp only [Out.after, mountShape, List.nil_append, List.cons_append, hc.1]
      right; right
      exact ⟨_, _, _, _, _, _, _, _, _, rfl, rfl, hc.2⟩

/-- Every run of `NodeStageVolume` either stops before the resolver, having run
no executable and removed nothing, or is one of two prefixes followed by the
tail described by `mountShape`. -/
theorem stage_spec {σ : Type} (w : World σ) (req : NodeStageVolumeRequest) (s : σ) :
    (∀ e ∈ (NodeStageVolume w req s).trace, e.isExec = false ∧ e.isRemove = false) ∨
    (∃ pre tail, (NodeStageVolume w req s).trace = pre ++ tail ∧
      ((∃ pe, pre = [Event.IsLikelyNotMountPoint req.StagingTargetPath true pe,
          Event.MakeDir req.StagingTargetPath none]) ∨
       (∃ pe re, pre = [Event.IsLikelyNotMountPoint req.StagingTargetPath false pe,
          Event.MakeDir req.StagingTargetPath none,
          Event.ReadDir req.StagingTargetPath (some re),
          Event.Unmount req.StagingTargetPath none])) ∧
      mountShape req.StagingTargetPath (NodeStageVolume w req s).val tail) := by
  rw [NodeStageVolume_eq]
  simp only [Eff.bind_run, Eff.pure_run, Eff.ite_run, mounter.IsLikelyNotMountPoint,
    mounter.MakeDir, mounter.Unmount, ioutil.ReadDir, Eff.call_run]
  by_cases hv : (len req.VolumeId == 0) = true
  · simp [hv]
  by_cases ht : (len req.StagingTargetPath == 0) = true
  · simp [hv, ht, Out.after]
  by_cases hc : req.VolumeCapability.isNone = true
  · simp [hv, ht, hc, Out.after]
  simp only [hv, ht, hc, if_false]
  rcases h1 : w.IsLikelyNotMountPoint req.StagingTargetPath s with ⟨⟨nm, pe⟩, s1⟩
  rcases h2 : w.MakeDir req.StagingTargetPath s1 with ⟨me, s2⟩
  rcases h3 : w.ReadDir req.StagingTargetPath s2 with ⟨re, s3⟩
  rcases h4 : w.Unmount req.StagingTargetPath s3 with ⟨ue, s4⟩
  by_cases hp : (pe.isSome && !os.IsNotExist pe) = true
  · simp [hp, Out.after, Event.isExec, Event.isRemove]
  simp only [hp, if_false]
  cases me with
  | some e => simp [Out.after, Event.isExec, Event.isRemove, h2]
  | none =>
    cases nm with
    | true =>
      right
      have hm := mountStep_spec w req s2
      refine ⟨_, (NodeStageVolume.mountStep w req s2).trace, ?_, Or.inl ⟨pe, rfl⟩, ?_⟩
      · simp [Out.after, h2]
      · simpa [Out.after, h2] using hm
    | false =>
      cases re with
      | none => simp [Out.after, Event.isExec, Event.isRemove, h2, h3]
      | some re =>
        cases ue with
        | some ue => simp [Out.after, Event.isExec, Event.isRemove, h2, h3, h4]
        | none =>
          right
          have hm := mountStep_spec w req s4
          refine ⟨_, (NodeStageVolume.mountStep w req s4).trace, ?_, Or.inr ⟨pe, re, rfl⟩, ?_⟩
          · simp [Out.after, h2, h3, h4]
          · simpa [Out.after, h2, h3, h4] using hm

theorem afterExec_append (pre post : List Event) (ev : Event)
    (hpre : ∀ x ∈ pre, x.isExec = false) (hev : ev.isExec = true) :
    afterExec (pre ++ ev :: post) = post := by
  induction pre with
  | nil => simp [afterExec, List.dropWhile, hev]
  | cons a l ih =>
    have ha : a.isExec = false := hpre a (List.mem_cons_self a l)
    have hl : ∀ x ∈ l, x.isExec = false := fun x hx => hpre x (List.mem_cons_of_mem a hx)
    have := ih hl
    simpa [afterExec, List.dropWhile, ha] using this

theorem cleanupShape_no_exec (p : String) (t : List Event) (h : cleanupShape p t) :
    ∀ x ∈ t, x.isExec = false := by
  rcases h with ⟨nm, e, rfl⟩ | ⟨r, rfl⟩ | ⟨e, rfl⟩ | ⟨nm, e, rfl⟩ | rfl | ⟨r, rfl⟩ <;>
    simp [Event.isExec]

/-- A run of `NodeStageVolume` in which an executable failed: the executable is
`goofys`, nothing was run or removed before it, the calls after it have one of
the six shapes of the clean-up, and the value returned is the mount error. -/
theorem stage_exec_failed {σ : Type} (w : World σ) (req : NodeStageVolumeRequest) (s : σ)
    (name : String) (arg env : List String) (output : String) (e : GoError)
    (h : Event.CombinedOutput name arg env output (some e) ∈ (NodeStageVolume w req s).trace) :
    ∃ pre post, (NodeStageVolume w req s).trace =
        pre ++ Event.CombinedOutput name arg env output (some e) :: post ∧
      (∀ x ∈ pre, x.isExec = false ∧ x.isRemove = false) ∧
      cleanupShape req.StagingTargetPath post ∧
      (NodeStageVolume w req s).val = (none, some (mountFailed e output)) ∧
      name = "goofys" := by
  rcases stage_spec w req s with hno | ⟨pre, tail, htr, hpre, hshape⟩
  · have := (hno _ h).1
    simp [Event.isExec] at this
  · rw [htr] at h ⊢
    have hpre2 : ∀ x ∈ pre, x.isExec = false ∧ x.isRemove = false := by
      rcases hpre with ⟨pe, rfl⟩ | ⟨pe, re, rfl⟩ <;> simp [Event.isExec, Event.isRemove]
    have hnotpre : Event.CombinedOutput name arg env output (some e) ∉ pre := by
      intro hin
      have := (hpre2 _ hin).1
      simp [Event.isExec] at this
    have htail : Event.CombinedOutput name arg env output (some e) ∈ tail := by
      rcases List.mem_append.mp h with h1 | h1
      · exact absurd h1 hnotpre
      · exact h1
    rcases hshape with ⟨v, a, c, ac, e1, rfl, hval⟩ | ⟨v, a, c, ac, args, env1, out1, rfl, hval⟩ |
      ⟨v, a, c, ac, args, env1, out1, e1, post, rfl, hval, hpost⟩
    · simp at htail
    · simp at htail
    · have hpostno := cleanupShape_no_exec _ _ hpost
      simp only [List.cons_append, List.nil_append, List.mem_cons] at htail
      rcases htail with h1 | h1 | h1
      · simp at h1
      · injection h1 with hn ha he ho hee
        injection hee with hee
        subst hn ha he ho hee
        refine ⟨pre ++ [Event.getStorageAccountAndContainer v a c ac none], post, by simp, ?_,
          hpost, hval, rfl⟩
        intro x hx
        rcases List.mem_append.mp hx with h2 | h2
        · exact hpre2 x h2
        · simp at h2; subst h2; simp [Event.isExec, Event.isRemove]
      · have := hpostno _ h1
        simp [Event.isExec] at this

/-- The clean-up after a failed mount, read off the answers of the world: it
returns `err`, it starts with the probe of the path, and it calls `Unmount`
once when that probe answers "mounted" without an error, and never otherwise. -/
theorem cleanup_world {σ : Type} (w : World σ) (p : String) (err : GoError) (s : σ) :
    (NodeStageVolume.cleanup w p err s).val = (none, some err) ∧
    (NodeStageVolume.cleanup w p err s).trace.head? =
      some (Event.IsLikelyNotMountPoint p (w.IsLikelyNotMountPoint p s).1.1
        (w.IsLikelyNotMountPoint p s).1.2) ∧
    (NodeStageVolume.cleanup w p err s).trace.countP Event.isUnmount =
      (if (w.IsLikelyNotMountPoint p s).1 = (false, none) then 1 else 0) ∧
    ((w.IsLikelyNotMountPoint p s).1 = (false, none) →
      (NodeStageVolume.cleanup w p err s).trace.take 2 =
        [Event.IsLikelyNotMountPoint p false none,
         Event.Unmount p (w.Unmount p (w.IsLikelyNotMountPoint p s).2).1]) := by
  unfold NodeStageVolume.cleanup
  simp only [Eff.bind_run, Eff.pure_run, Eff.ite_run, mounter.IsLikelyNotMountPoint,
    mounter.Unmount, os.Remove, Eff.call_run]
  rcases h1 : w.IsLikelyNotMountPoint p s with ⟨⟨nm, pe⟩, s1⟩
  rcases h2 : w.Unmount p s1 with ⟨ue, s2⟩
  rcases h3 : w.IsLikelyNotMountPoint p s2 with ⟨⟨nm2, pe2⟩, s3⟩
  cases nm <;> cases pe <;> cases ue <;> cases nm2 <;> cases pe2 <;>
    simp [Out.after, h2, h3, Event.isUnmount]

/-- From a state described by `stagePrefix`, `NodeStageVolume` on a complete
request is the calls `pre` followed by its tail. -/
theorem stage_reach {σ : Type} (w : World σ) (req : NodeStageVolumeRequest) (s sR : σ)
    (pre : List Event)
    (hv : req.VolumeId ≠ "") (ht : req.StagingTargetPath ≠ "")
    (hc : req.VolumeCapability ≠ none)
    (hpre : stagePrefix w req.StagingTargetPath s sR pre) :
    NodeStageVolume w req s = Out.after pre (NodeStageVolume.mountStep w req sR) := by
  have hc2 : req.VolumeCapability.isNone = false := by
    cases hcap : req.VolumeCapability with
    | none => exact absurd hcap hc
    | some c => rfl
  rw [NodeStageVolume_eq]
  simp only [Eff.bind_run, Eff.pure_run, Eff.ite_run, mounter.IsLikelyNotMountPoint,
    mounter.MakeDir, mounter.Unmount, ioutil.ReadDir, Eff.call_run, beq_iff_eq,
    len_eq_zero_iff]
  rcases hpre with ⟨pe, s1, h1, hp, h2, rfl⟩ | ⟨pe, s1, s2, re, s3, h1, hp, h2, h3, h4, rfl⟩
  · simp [hv, ht, hc2, h1, hp, h2, Out.after]
  · simp [hv, ht, hc2, h1, hp, h2, h3, h4, Out.after]

/-- The tail of `NodeStageVolume` when the resolver succeeds and the mount
executable fails: the two calls, then the clean-up in the state the executable left. -/
theorem mountStep_exec_failed {σ : Type} (w : World σ) (req : NodeStageVolumeRequest)
    (sR sE s4 : σ) (acct : StorageAccount) (output : String) (e : GoError)
    (hres : w.getStorageAccountAndContainer req.VolumeId req.VolumeContext req.Secrets sR
      = ((acct, none), sE))
    (hexec : w.CombinedOutput "goofys"
      (goofysArgs (MountVolume.GetMountFlags (VolumeCapability.GetMount req.VolumeCapability))
        acct.containerName acct.accountName req.StagingTargetPath)
      (w.Environ sE ++ ["AZURE_STORAGE_ACCOUNT=" ++ acct.accountName]
        ++ ["AZURE_STORAGE_KEY=" ++ acct.accountKey]) sE = ((output, some e), s4)) :
    NodeStageVolume.mountStep w req sR =
      Out.after
        [Event.getStorageAccountAndContainer req.VolumeId req.VolumeContext req.Secrets acct none,
         Event.CombinedOutput "goofys"
          (goofysArgs (MountVolume.GetMountFlags (VolumeCapability.GetMount req.VolumeCapability))
            acct.containerName acct.accountName req.StagingTargetPath)
          (w.Environ sE ++ ["AZURE_STORAGE_ACCOUNT=" ++ acct.accountName]
            ++ ["AZURE_STORAGE_KEY=" ++ acct.accountKey]) output (some e)]
        (NodeStageVolume.cleanup w req.StagingTargetPath (mountFailed e output) s4) := by
  unfold NodeStageVolume.mountStep
  simp only [Eff.bind_run, Eff.pure_run, Eff.ite_run, os.Environ, exec.CombinedOutput,
    getStorageAccountAndContainer, Eff.call_run, Eff.read_run, hres, Option.isSome_none,
    Bool.false_eq_true, if_false, hexec]
  simp [Out.after]

/-! ## The shape of a run of `ensureMountPoint` and of `NodePublishVolume` -/

theorem ensure_spec {σ : Type} (w : World σ) (p : String) (s : σ) :
    ensureShape p (ensureMountPoint w p s).val (ensureMountPoint w p s).trace := by
  unfold ensureMountPoint
  simp only [Eff.bind_run, Eff.pure_run, Eff.ite_run, mounter.IsLikelyNotMountPoint,
    mounter.MakeDir, mounter.Unmount, ioutil.ReadDir, Eff.call_run]
  rcases h1 : w.IsLikelyNotMountPoint p s with ⟨⟨nm, pe⟩, s1⟩
  rcases h2 : w.ReadDir p s1 with ⟨re, s2⟩
  rcases h3 : w.Unmount p s2 with ⟨ue, s3⟩
  rcases h4 : w.MakeDir p s3 with ⟨me, s4⟩
  rcases h5 : w.MakeDir p s1 with ⟨me2, s5⟩
  by_cases hp : (pe.isSome && !os.IsNotExist pe) = true
  · rw [if_pos hp]
    cases pe with
    | none => simp at hp
    | some e => simp [Out.after, ensureShape]
  rw [if_neg hp]
  cases nm <;> cases re <;> cases ue <;> cases me <;> cases me2 <;>
    simp [Out.after, ensureShape, h2, h3, h4, h5]

theorem ensureShape_counts (p : String) (val : Option GoError) (t : List Event)
    (h : ensureShape p val t) :
    t.countP Event.isUnmount ≤ 1 ∧ t.countP Event.isMount = 0 ∧ t.countP Event.isRemove = 0 ∧
    t.countP Event.isExec = 0 := by
  rcases h with ⟨nm, e, rfl, _⟩ | ⟨pe, rfl, _⟩ | ⟨pe, re, ue, rfl, _⟩ | ⟨pe, re, r, rfl, _⟩ |
    ⟨pe, r, rfl, _⟩ <;>
    simp [Event.isUnmount, Event.isMount, Event.isRemove, Event.isExec]

/-- A run of `NodePublishVolume` on a complete request: the calls of
`ensureMountPoint`, then nothing if it failed, else `Mount`, and `Remove` if
`Mount` failed. -/
theorem publish_run {σ : Type} (w : World σ) (req : NodePublishVolumeRequest) (s : σ)
    (hc : req.VolumeCapability ≠ none) (hv : req.VolumeId ≠ "") (ht : req.TargetPath ≠ "")
    (hs : req.StagingTargetPath ≠ "") :
    NodePublishVolume w req s =
      Out.after (ensureMountPoint w req.TargetPath s).trace
        (match (ensureMountPoint w req.TargetPath s).val with
         | some err =>
           ⟨(none, some (status.Error Code.Internal
              ("Could not mount target " ++ w.quote req.TargetPath ++ ": " ++ err.text))),
            (ensureMountPoint w req.TargetPath s).state, []⟩
         | none =>
           match w.Mount req.StagingTargetPath req.TargetPath "" (publishOptions req)
              (ensureMountPoint w req.TargetPath s).state with
           | (some err, s2) =>
             (match w.Remove req.TargetPath s2 with
              | (some removeErr, s3) =>
                ⟨(none, some (status.Error Code.Internal
                  ("Could not remove mount target " ++ w.quote req.TargetPath ++ ": "
                    ++ removeErr.text))), s3,
                 [Event.Mount req.StagingTargetPath req.TargetPath "" (publishOptions req)
                    (some err), Event.Remove req.TargetPath (some removeErr)]⟩
              | (none, s3) =>
                ⟨(none, some (status.Error Code.Internal
                  ("Could not mount " ++ w.quote req.StagingTargetPath ++ " at "
                    ++ w.quote req.TargetPath ++ ": " ++ err.text))), s3,
                 [Event.Mount req.StagingTargetPath req.TargetPath "" (publishOptions req)
                    (some err), Event.Remove req.TargetPath none]⟩)
           | (none, s2) =>
             ⟨(some {}, none), s2,
              [Event.Mount req.StagingTargetPath req.TargetPath "" (publishOptions req) none]⟩) := by
  have hc2 : req.VolumeCapability.isNone = false := by
    cases hcap : req.VolumeCapability with
    | none => exact absurd hcap hc
    | some c => rfl
  unfold NodePublishVolume
  simp only [Eff.bind_run, Eff.pure_run, Eff.ite_run, beq_iff_eq, len_eq_zero_iff, hc2, hv, ht,
    hs, if_false, Bool.false_eq_true, mounter.Mount, os.Remove, Eff.call_run]
  rcases hE : ensureMountPoint w req.TargetPath s with ⟨v, s1, t1⟩
  cases v with
  | some err => simp [Out.after, Eff.pure_run]
  | none =>
    simp only [Eff.bind_run, Eff.call_run]
    rcases hM : w.Mount req.StagingTargetPath req.TargetPath "" (publishOptions req) s1
      with ⟨me, s2⟩
    have hM2 : w.Mount req.StagingTargetPath req.TargetPath ""
        (if req.Readonly = true then ["bind", "ro"] else ["bind"]) s1 = (me, s2) := hM
    cases me with
    | none => simp [Out.after, Eff.pure_run, hM2, publishOptions]
    | some err =>
      rcases hR : w.Remove req.TargetPath s2 with ⟨re, s3⟩
      cases re <;>
        simp [Out.after, Eff.pure_run, Eff.bind_run, Eff.call_run, hM2, hR, publishOptions]

theorem publish_incomplete {σ : Type} (w : World σ) (req : NodePublishVolumeRequest) (s : σ)
    (h : req.VolumeCapability = none ∨ req.VolumeId = "" ∨ req.TargetPath = "" ∨
      req.StagingTargetPath = "") :
    ∃ e, NodePublishVolume w req s = ⟨(none, some e), s, []⟩ ∧ e.code = Code.InvalidArgument := by
  unfold NodePublishVolume
  simp only [Eff.bind_run, Eff.pure_run, Eff.ite_run, beq_iff_eq, len_eq_zero_iff]
  by_cases hc : req.VolumeCapability.isNone = true
  · rw [if_pos hc]; exact ⟨_, rfl, rfl⟩
  rw [if_neg hc]
  by_cases hv : req.VolumeId = ""
  · rw [if_pos hv]; exact ⟨_, rfl, rfl⟩
  rw [if_neg hv]
  by_cases ht : req.TargetPath = ""
  · rw [if_pos ht]; exact ⟨_, rfl, rfl⟩
  rw [if_neg ht]
  have hs : req.StagingTargetPath = "" := by
    rcases h with h | h | h | h
    · simp [h] at hc
    · exact absurd h hv
    · exact absurd h ht
    · exact h
  rw [if_pos hs]; exact ⟨_, rfl, rfl⟩

theorem ensure_stale {σ : Type} (w : World σ) (p : String) (s s1 s2 : σ)
    (pe : Option GoError) (re : GoError)
    (h1 : w.IsLikelyNotMountPoint p s = ((false, pe), s1))
    (hp : (pe.isSome && !os.IsNotExist pe) = false)
    (h2 : w.ReadDir p s1 = (some re, s2)) :
    ∃ rest, (ensureMountPoint w p s).trace =
      [Event.IsLikelyNotMountPoint p false pe, Event.ReadDir p (some re),
       Event.Unmount p (w.Unmount p s2).1] ++ rest := by
  unfold ensureMountPoint
  simp only [Eff.bind_run, Eff.pure_run, Eff.ite_run, mounter.IsLikelyNotMountPoint,
    mounter.MakeDir, mounter.Unmount, ioutil.ReadDir, Eff.call_run, h1, hp, h2]
  simp [Out.after]

theorem remove_error_ne_mount_error (q1 q2 t1 t2 : String) :
    status.Error Code.Internal ("Could not remove mount target " ++ q1 ++ ": " ++ t1) ≠
    status.Error Code.Internal ("Could not mount " ++ q2 ++ " at " ++ q1 ++ ": " ++ t2) := by
  intro h
  have h2 := congrArg (fun e : GoError => e.text.data.take 45) h
  simp [status.Error, Code.String, String.data_append, List.take_append_eq_append_take] at h2

/-! ## The arguments built by `goofysArgs` -/

theorem glue_append (fs : List String) (t u : List Char) :
    glue fs (t ++ u) = glue fs t ++ u := by
  induction fs with
  | nil => rfl
  | cons f fs ih => simp [glue, ih]

theorem glue_snoc (fs : List String) (l : String) (t : List Char) :
    glue (fs ++ [l]) t = glue fs (l.data ++ ' ' :: t) := by
  induction fs with
  | nil => simp [glue]
  | cons f fs ih => simp [glue, ih]

theorem foldl_flags_data (flags : List String) (init : String) :
    (flags.foldl (fun args opt => args ++ opt ++ " ") init).data = init.data ++ glue flags [] := by
  induction flags generalizing init with
  | nil => simp [glue]
  | cons f fs ih =>
    simp only [List.foldl_cons, ih, glue, String.data_append]
    have : (" " : String).data = [' '] := rfl
    simp [this]

theorem split_go_word (w rest cur : List Char) (hw : ∀ ch ∈ w, ch ≠ ' ') :
    strings.Split.go ' ' (w ++ ' ' :: rest) cur =
      String.mk (cur.reverse ++ w) :: strings.Split.go ' ' rest [] := by
  induction w generalizing cur with
  | nil => simp [strings.Split.go]
  | cons c w ih =>
    have hc : c ≠ ' ' := hw c (List.mem_cons_self c w)
    have hw2 : ∀ ch ∈ w, ch ≠ ' ' := fun ch h => hw ch (List.mem_cons_of_mem c h)
    simp [strings.Split.go, hc, ih (c :: cur) hw2]

theorem split_go_last (w cur : List Char) (hw : ∀ ch ∈ w, ch ≠ ' ') :
    strings.Split.go ' ' w cur = [String.mk (cur.reverse ++ w)] := by
  induction w generalizing cur with
  | nil => simp [strings.Split.go]
  | cons c w ih =>
    have hc : c ≠ ' ' := hw c (List.mem_cons_self c w)
    have hw2 : ∀ ch ∈ w, ch ≠ ' ' := fun ch h => hw ch (List.mem_cons_of_mem c h)
    simp [strings.Split.go, hc, ih (c :: cur) hw2]

theorem split_go_glue (fs : List String) (tail : List Char)
    (hfs : ∀ f ∈ fs, ∀ ch ∈ f.data, ch ≠ ' ') :
    strings.Split.go ' ' (glue fs tail) [] = fs ++ strings.Split.go ' ' tail [] := by
  induction fs with
  | nil => rfl
  | cons f fs ih =>
    have hf := hfs f (List.mem_cons_self f fs)
    have hfs2 : ∀ g ∈ fs, ∀ ch ∈ g.data, ch ≠ ' ' :=
      fun g hg => hfs g (List.mem_cons_of_mem f hg)
    simp [glue, split_go_word _ _ _ hf, ih hfs2]

theorem data_ne_nil_of_ne_empty (f : String) (h : f ≠ "") : f.data ≠ [] := by
  intro hd
  apply h
  rcases f with ⟨cs⟩
  simp only at hd
  subst hd
  rfl

theorem not_blank_of_not_space (ch : Char) (h : unicode.IsSpace ch = false) : ch ≠ ' ' := by
  intro hc
  subst hc
  simp [unicode.IsSpace] at h

theorem exists_reverse_head (l : List Char) (h : l ≠ []) :
    ∃ d rest, l.reverse = d :: rest ∧ d ∈ l := by
  cases hr : l.reverse with
  | nil => simp at hr; exact absurd hr h
  | cons d rest =>
    refine ⟨d, rest, rfl, ?_⟩
    have : d ∈ l.reverse := by rw [hr]; exact List.mem_cons_self d rest
    exact List.mem_reverse.mp this

theorem trim_glue (init : List String) (last : String)
    (hflags : ∀ f ∈ init ++ [last], f ≠ "" ∧ ∀ ch ∈ f.data, unicode.IsSpace ch = false) :
    strings.TrimSpace (String.mk (glue (init ++ [last]) [])) = String.mk (glue init last.data) := by
  have hlast := hflags last (by simp)
  have hL : glue (init ++ [last]) [] = glue init last.data ++ [' '] := by
    rw [glue_snoc, ← glue_append]
  -- the first character is not a space
  have hhead : ∃ c rest, glue init last.data = c :: rest ∧ unicode.IsSpace c = false := by
    cases init with
    | nil =>
      cases hd : last.data with
      | nil => exact absurd hd (data_ne_nil_of_ne_empty last hlast.1)
      | cons c rest =>
        exact ⟨c, rest, by simp [glue, hd], hlast.2 c (by simp [hd])⟩
    | cons f fs =>
      have hf := hflags f (by simp)
      cases hd : f.data with
      | nil => exact absurd hd (data_ne_nil_of_ne_empty f hf.1)
      | cons c rest =>
        exact ⟨c, rest ++ ' ' :: glue fs last.data, by simp [glue, hd],
          hf.2 c (by simp [hd])⟩
  -- the last character is not a space
  have hrev : ∃ d rest, (glue init last.data).reverse = d :: rest ∧ unicode.IsSpace d = false := by
    have hsplit : glue init last.data = glue init [] ++ last.data := by
      rw [← glue_append]; rfl
    rcases exists_reverse_head last.data (data_ne_nil_of_ne_empty last hlast.1) with
      ⟨d, rest, hr, hd⟩
    refine ⟨d, rest ++ (glue init []).reverse, ?_, hlast.2 d hd⟩
    rw [hsplit, List.reverse_append, hr]
    rfl
  rcases hhead with ⟨c, rest, hc, hcs⟩
  rcases hrev with ⟨d, rest2, hd, hds⟩
  unfold strings.TrimSpace
  simp only [hL]
  have h1 : (glue init last.data ++ [' ']).dropWhile unicode.IsSpace
      = glue init last.data ++ [' '] := by
    rw [hc]
    simp [List.dropWhile, hcs]
  rw [h1]
  have hsp : unicode.IsSpace ' ' = true := by decide
  have h2 : ((glue init last.data ++ [' ']).reverse).dropWhile unicode.IsSpace
      = (glue init last.data).reverse := by
    rw [List.reverse_append]
    simp only [List.reverse_cons, List.reverse_nil, List.nil_append, List.singleton_append]
    rw [List.dropWhile_cons, if_pos hsp, hd, List.dropWhile_cons]
    simp [hds]
  rw [h2, List.reverse_reverse]

/-- With at least one flag, the endpoint is glued to the last flag. -/
theorem goofysArgs_flags (init : List String) (last c a p : String)
    (hflags : ∀ f ∈ init ++ [last], f ≠ "" ∧ ∀ ch ∈ f.data, unicode.IsSpace ch = false)
    (hc : ∀ ch ∈ c.data, ch ≠ ' ') (ha : ∀ ch ∈ a.data, ch ≠ ' ')
    (hp : ∀ ch ∈ p.data, ch ≠ ' ') :
    goofysArgs (init ++ [last]) c a p =
      init ++ [last ++ ("wasb://" ++ c ++ "@" ++ a ++ ".blob.core.windows.net"), p] := by
  unfold goofysArgs strings.Split
  have hfold : (init ++ [last]).foldl (fun args opt => args ++ opt ++ " ") ""
      = String.mk (glue (init ++ [last]) []) := by
    apply String.ext
    rw [foldl_flags_data]
    rfl
  simp only [hfold, trim_glue init last hflags, String.data_append]
  have hE : ("wasb://" : String).data ++ c.data ++ ("@" : String).data ++ a.data
      ++ (".blob.core.windows.net " : String).data ++ p.data
      = (("wasb://" : String).data ++ c.data ++ ("@" : String).data ++ a.data
      ++ (".blob.core.windows.net" : String).data) ++ ' ' :: p.data := by
    have : (".blob.core.windows.net " : String).data
        = (".blob.core.windows.net" : String).data ++ [' '] := by decide
    rw [this]
    simp
  rw [hE, ← glue_append, split_go_glue]
  · have hw : ∀ ch ∈ last.data ++ (("wasb://" : String).data ++ c.data ++ ("@" : String).data
        ++ a.data ++ (".blob.core.windows.net" : String).data), ch ≠ ' ' := by
      intro ch hch
      simp only [List.mem_append] at hch
      rcases hch with h | (((h | h) | h) | h) | h
      · exact not_blank_of_not_space ch ((hflags last (by simp)).2 ch h)
      · intro hb; subst hb; revert h; decide
      · exact hc ch h
      · intro hb; subst hb; revert h; decide
      · exact ha ch h
      · intro hb; subst hb; revert h; decide
    rw [← List.append_assoc, split_go_word _ _ _ hw, split_go_last _ _ hp]
    simp only [List.reverse_nil, List.nil_append, List.append_cancel_left_eq, List.cons.injEq,
      and_true]
    apply String.ext
    simp [String.data_append]
  · intro f hf ch hch
    exact not_blank_of_not_space ch ((hflags f (by simp [hf])).2 ch hch)

/-- Without flags the arguments are the endpoint and the staging path. -/
theorem goofysArgs_no_flags (c a p : String)
    (hc : ∀ ch ∈ c.data, ch ≠ ' ') (ha : ∀ ch ∈ a.data, ch ≠ ' ')
    (hp : ∀ ch ∈ p.data, ch ≠ ' ') :
    goofysArgs [] c a p = ["wasb://" ++ c ++ "@" ++ a ++ ".blob.core.windows.net", p] := by
  unfold goofysArgs strings.Split
  have htrim : strings.TrimSpace "" = "" := by decide
  simp only [List.foldl_nil, htrim, String.data_append]
  have hE : ("" : String).data ++ (("wasb://" : String).data ++ c.data ++ ("@" : String).data
      ++ a.data ++ (".blob.core.windows.net " : String).data ++ p.data)
      = (("wasb://" : String).data ++ c.data ++ ("@" : String).data ++ a.data
      ++ (".blob.core.windows.net" : String).data) ++ ' ' :: p.data := by
    have h1 : (".blob.core.windows.net " : String).data
        = (".blob.core.windows.net" : String).data ++ [' '] := by decide
    have h2 : ("" : String).data = [] := rfl
    rw [h1, h2]
    simp
  have hw : ∀ ch ∈ ("wasb://" : String).data ++ c.data ++ ("@" : String).data
      ++ a.data ++ (".blob.core.windows.net" : String).data, ch ≠ ' ' := by
    intro ch hch
    simp only [List.mem_append] at hch
    rcases hch with (((h | h) | h) | h) | h
    · intro hb; subst hb; revert h; decide
    · exact hc ch h
    · intro hb; subst hb; revert h; decide
    · exact ha ch h
    · intro hb; subst hb; revert h; decide
  rw [hE, split_go_word _ _ _ hw, split_go_last _ _ hp]
  simp only [List.reverse_nil, List.nil_append, List.cons.injEq, and_true]
  apply String.ext
  simp [String.data_append]


/-! ## C1: requests with a missing field -/

/-- C1. A request to `NodeStageVolume`, `NodeUnstageVolume`, `NodePublishVolume`
or `NodeUnpublishVolume` in which a required field is missing gets a nil
response and an error of code `InvalidArgument`; the trace of calls is empty
(no mounter method, no listing, no removal, no executable) and the world is
left as it was. -/
theorem C1_missing_field_invalid_argument {σ : Type} (w : World σ) (s : σ) :
    (∀ req : NodeStageVolumeRequest,
      req.VolumeId = "" ∨ req.StagingTargetPath = "" ∨ req.VolumeCapability = none →
      ∃ e, NodeStageVolume w req s = ⟨(none, some e), s, []⟩ ∧ e.code = Code.InvalidArgument) ∧
    (∀ req : NodeUnstageVolumeRequest,
      req.VolumeId = "" ∨ req.StagingTargetPath = "" →
      ∃ e, NodeUnstageVolume w req s = ⟨(none, some e), s, []⟩ ∧ e.code = Code.InvalidArgument) ∧
    (∀ req : NodePublishVolumeRequest,
      req.VolumeCapability = none ∨ req.VolumeId = "" ∨ req.TargetPath = "" ∨
        req.StagingTargetPath = "" →
      ∃ e, NodePublishVolume w req s = ⟨(none, some e), s, []⟩ ∧ e.code = Code.InvalidArgument) ∧
    (∀ req : NodeUnpublishVolumeRequest,
      req.VolumeId = "" ∨ req.TargetPath = "" →
      ∃ e, NodeUnpublishVolume w req s = ⟨(none, some e), s, []⟩ ∧
        e.code = Code.InvalidArgument) := by
  refine ⟨?_, ?_, ?_, ?_⟩
  · intro req h
    rw [NodeStageVolume_eq]
    simp only [Eff.bind_run, Eff.pure_run, Eff.ite_run, beq_iff_eq, len_eq_zero_iff]
    by_cases hv : req.VolumeId = ""
    · rw [if_pos hv]; exact ⟨_, rfl, rfl⟩
    rw [if_neg hv]
    by_cases ht : req.StagingTargetPath = ""
    · rw [if_pos ht]; exact ⟨_, rfl, rfl⟩
    rw [if_neg ht]
    have hc : req.VolumeCapability.isNone = true := by
      rcases h with h | h | h
      · exact absurd h hv
      · exact absurd h ht
      · simp [h]
    rw [if_pos hc]; exact ⟨_, rfl, rfl⟩
  · intro req h
    unfold NodeUnstageVolume
    simp only [Eff.bind_run, Eff.pure_run, Eff.ite_run, beq_iff_eq, len_eq_zero_iff]
    by_cases hv : req.VolumeId = ""
    · rw [if_pos hv]; exact ⟨_, rfl, rfl⟩
    rw [if_neg hv]
    have ht : req.StagingTargetPath = "" := by
      rcases h with h | h
      · exact absurd h hv
      · exact h
    rw [if_pos ht]; exact ⟨_, rfl, rfl⟩
  · intro req h
    exact publish_incomplete w req s h
  · intro req h
    unfold NodeUnpublishVolume
    simp only [Eff.bind_run, Eff.pure_run, Eff.ite_run, beq_iff_eq, len_eq_zero_iff]
    by_cases hv : req.VolumeId = ""
    · rw [if_pos hv]; exact ⟨_, rfl, rfl⟩
    rw [if_neg hv]
    have ht : req.TargetPath = "" := by
      rcases h with h | h
      · exact absurd h hv
      · exact h
    rw [if_pos ht]; exact ⟨_, rfl, rfl⟩

/-- C1 at a publish request with an empty staging path (scenario C of the
specification), in a world where every call would succeed. -/
theorem C1_missing_field_invalid_argument_witness :
    (publishReqNoStaging.VolumeCapability = none ∨ publishReqNoStaging.VolumeId = "" ∨
      publishReqNoStaging.TargetPath = "" ∨ publishReqNoStaging.StagingTargetPath = "") ∧
    ∃ e, NodePublishVolume healthyWorld publishReqNoStaging () = ⟨(none, some e), (), []⟩ ∧
      e.code = Code.InvalidArgument :=
  ⟨by decide,
   (C1_missing_field_invalid_argument healthyWorld ()).2.2.1 publishReqNoStaging (by decide)⟩

/-! ## C2: `NodeStageVolume` on a healthy mount -/

/-- C2, at the failing input. The request is complete, the probe reports a
mount point and listing the directory succeeds, yet `NodeStageVolume` does not
return the success response: it calls `MakeDir` (line 119) before it looks at
the probe's answer (line 123), and returns the error of `MakeDir`.  The sibling
`ensureMountPoint`, in the same world and on the same path, succeeds after the
probe and the listing, without calling `MakeDir`. -/
theorem C2_stage_fails_on_valid_mount :
    stageReq.VolumeId ≠ "" ∧ stageReq.StagingTargetPath ≠ "" ∧
    stageReq.VolumeCapability ≠ none ∧
    (makeDirFailsOnValidMount.IsLikelyNotMountPoint stageReq.StagingTargetPath ()).1
      = (false, none) ∧
    (makeDirFailsOnValidMount.ReadDir stageReq.StagingTargetPath ()).1 = none ∧
    NodeStageVolume makeDirFailsOnValidMount stageReq () =
      ⟨(none, some EIO), (),
       [Event.IsLikelyNotMountPoint "/stage" false none, Event.MakeDir "/stage" (some EIO)]⟩ ∧
    (NodeStageVolume makeDirFailsOnValidMount stageReq ()).val ≠ (some {}, none) ∧
    ensureMountPoint makeDirFailsOnValidMount stageReq.StagingTargetPath () =
      ⟨none, (),
       [Event.IsLikelyNotMountPoint "/stage" false none, Event.ReadDir "/stage" none]⟩ :=
  ⟨by decide, by decide, by decide, rfl, rfl, rfl, by decide, rfl⟩

/-- What `NodeStageVolume` does do on a healthy mount.  For a complete request, if the probe reports a mount point,
`MakeDir` on the staging path succeeds and listing the directory succeeds,
`NodeStageVolume` returns the empty success response after exactly these three
calls: no mount executable, no `Unmount`, no resolver.  Called a second time in
the world the first call left, under the same three conditions, it again
returns success after the same three calls. -/
theorem stage_idempotent_when_makedir_succeeds {σ : Type} (w : World σ)
    (req : NodeStageVolumeRequest) (s s1 s2 s3 : σ)
    (hv : req.VolumeId ≠ "") (ht : req.StagingTargetPath ≠ "")
    (hc : req.VolumeCapability ≠ none)
    (hprobe : w.IsLikelyNotMountPoint req.StagingTargetPath s = ((false, none), s1))
    (hmk : w.MakeDir req.StagingTargetPath s1 = (none, s2))
    (hls : w.ReadDir req.StagingTargetPath s2 = (none, s3)) :
    NodeStageVolume w req s =
      ⟨(some {}, none), s3,
       [Event.IsLikelyNotMountPoint req.StagingTargetPath false none,
        Event.MakeDir req.StagingTargetPath none,
        Event.ReadDir req.StagingTargetPath none]⟩ ∧
    (∀ s4 s5 s6 : σ,
      w.IsLikelyNotMountPoint req.StagingTargetPath s3 = ((false, none), s4) →
      w.MakeDir req.StagingTargetPath s4 = (none, s5) →
      w.ReadDir req.StagingTargetPath s5 = (none, s6) →
      NodeStageVolume w req (NodeStageVolume w req s).state =
        ⟨(some {}, none), s6,
         [Event.IsLikelyNotMountPoint req.StagingTargetPath false none,
          Event.MakeDir req.StagingTargetPath none,
          Event.ReadDir req.StagingTargetPath none]⟩) := by
  have key : ∀ t t1 t2 t3 : σ,
      w.IsLikelyNotMountPoint req.StagingTargetPath t = ((false, none), t1) →
      w.MakeDir req.StagingTargetPath t1 = (none, t2) →
      w.ReadDir req.StagingTargetPath t2 = (none, t3) →
      NodeStageVolume w req t =
        ⟨(some {}, none), t3,
         [Event.IsLikelyNotMountPoint req.StagingTargetPath false none,
          Event.MakeDir req.StagingTargetPath none,
          Event.ReadDir req.StagingTargetPath none]⟩ := by
    intro t t1 t2 t3 h1 h2 h3
    have hc2 : req.VolumeCapability.isNone = false := by
      cases hcap : req.VolumeCapability with
      | none => exact absurd hcap hc
      | some c => rfl
    rw [NodeStageVolume_eq]
    simp only [Eff.bind_run, Eff.pure_run, Eff.ite_run, mounter.IsLikelyNotMountPoint,
      mounter.MakeDir, mounter.Unmount, ioutil.ReadDir, Eff.call_run, beq_iff_eq,
      len_eq_zero_iff]
    simp [hv, ht, hc2, h1, h2, h3, Out.after, os.IsNotExist]
  refine ⟨key s s1 s2 s3 hprobe hmk hls, ?_⟩
  intro s4 s5 s6 h1 h2 h3
  rw [key s s1 s2 s3 hprobe hmk hls]
  exact key s3 s4 s5 s6 h1 h2 h3

/-- The same in the world with a mount bit, started with the path mounted:
two calls in a row succeed after the probe, `MakeDir` and the listing only. -/
theorem stage_idempotent_example :
    stageReq.VolumeId ≠ "" ∧ stageReq.StagingTargetPath ≠ "" ∧
    stageReq.VolumeCapability ≠ none ∧
    simWorld.IsLikelyNotMountPoint stageReq.StagingTargetPath true = ((false, none), true) ∧
    simWorld.MakeDir stageReq.StagingTargetPath true = (none, true) ∧
    simWorld.ReadDir stageReq.StagingTargetPath true = (none, true) ∧
    NodeStageVolume simWorld stageReq true =
      ⟨(some {}, none), true,
       [Event.IsLikelyNotMountPoint stageReq.StagingTargetPath false none,
        Event.MakeDir stageReq.StagingTargetPath none,
        Event.ReadDir stageReq.StagingTargetPath none]⟩ ∧
    NodeStageVolume simWorld stageReq (NodeStageVolume simWorld stageReq true).state =
      ⟨(some {}, none), true,
       [Event.IsLikelyNotMountPoint stageReq.StagingTargetPath false none,
        Event.MakeDir stageReq.StagingTargetPath none,
        Event.ReadDir stageReq.StagingTargetPath none]⟩ :=
  ⟨by decide, by decide, by decide, rfl, rfl, rfl,
   (stage_idempotent_when_makedir_succeeds simWorld stageReq true true true true
      (by decide) (by decide) (by decide) rfl rfl rfl).1,
   (stage_idempotent_when_makedir_succeeds simWorld stageReq true true true true
      (by decide) (by decide) (by decide) rfl rfl rfl).2 true true true rfl rfl rfl⟩

/-- Scenarios A and B of the specification in the world with a mount bit: the
first call on an unmounted path creates the directory, resolves the account
and runs `goofys` with the endpoint and the path; the second call, made in the
world the first one left, returns success without running anything. -/
theorem stage_twice_from_unmounted :
    NodeStageVolume simWorld stageReqNoFlags false =
      ⟨(some {}, none), true,
       [Event.IsLikelyNotMountPoint "/var/lib/stage/v1" true none,
        Event.MakeDir "/var/lib/stage/v1" none,
        Event.getStorageAccountAndContainer "v1" [] [] acct none,
        Event.CombinedOutput "goofys"
          ["wasb://cont@acct.blob.core.windows.net", "/var/lib/stage/v1"]
          ["AZURE_STORAGE_ACCOUNT=acct", "AZURE_STORAGE_KEY=key"] "" none]⟩ ∧
    NodeStageVolume simWorld stageReqNoFlags
        (NodeStageVolume simWorld stageReqNoFlags false).state =
      ⟨(some {}, none), true,
       [Event.IsLikelyNotMountPoint "/var/lib/stage/v1" false none,
        Event.MakeDir "/var/lib/stage/v1" none,
        Event.ReadDir "/var/lib/stage/v1" none]⟩ :=
  ⟨rfl, rfl⟩

/-! ## C3: recovery from a stale mount in `NodeStageVolume` -/

/-- C3, at the failing input. The request is complete, the probe reports a
mount point and listing the directory fails, yet `NodeStageVolume` calls
`Unmount` not once but never: `MakeDir` (line 119), called before the listing,
fails and ends the run on line 120.  The sibling `ensureMountPoint`, in the
same world and on the same path, lists the directory, calls `Unmount` once and
only then `MakeDir`. -/
theorem C3_stage_skips_recovery_unmount :
    stageReq.VolumeId ≠ "" ∧ stageReq.StagingTargetPath ≠ "" ∧
    stageReq.VolumeCapability ≠ none ∧
    (makeDirFailsOnStaleMount.IsLikelyNotMountPoint stageReq.StagingTargetPath ()).1
      = (false, none) ∧
    (makeDirFailsOnStaleMount.ReadDir stageReq.StagingTargetPath ()).1 = some EIO ∧
    NodeStageVolume makeDirFailsOnStaleMount stageReq () =
      ⟨(none, some EIO), (),
       [Event.IsLikelyNotMountPoint "/stage" false none, Event.MakeDir "/stage" (some EIO)]⟩ ∧
    (NodeStageVolume makeDirFailsOnStaleMount stageReq ()).trace.countP Event.isUnmount = 0 ∧
    ensureMountPoint makeDirFailsOnStaleMount stageReq.StagingTargetPath () =
      ⟨some EIO, (),
       [Event.IsLikelyNotMountPoint "/stage" false none, Event.ReadDir "/stage" (some EIO),
        Event.Unmount "/stage" none, Event.MakeDir "/stage" (some EIO)]⟩ :=
  ⟨by decide, by decide, by decide, rfl, rfl, rfl, by decide, rfl⟩

/-- What `NodeStageVolume` does do on a stale mount.  For a complete request, if the probe reports a mount point,
`MakeDir` on the staging path succeeds and listing the directory fails, then
the first four calls of `NodeStageVolume` are the probe, `MakeDir`, the listing
and `Unmount` of the staging path; among the calls made before the first run of
an executable there is exactly one `Unmount`; an executable is run at most
once; and if that `Unmount` fails, `NodeStageVolume` returns its error after
these four calls, so without running the mount executable. -/
theorem stage_stale_recovery_when_makedir_succeeds {σ : Type} (w : World σ)
    (req : NodeStageVolumeRequest) (s s1 s2 s3 : σ) (re : GoError)
    (hv : req.VolumeId ≠ "") (ht : req.StagingTargetPath ≠ "")
    (hc : req.VolumeCapability ≠ none)
    (hprobe : w.IsLikelyNotMountPoint req.StagingTargetPath s = ((false, none), s1))
    (hmk : w.MakeDir req.StagingTargetPath s1 = (none, s2))
    (hls : w.ReadDir req.StagingTargetPath s2 = (some re, s3)) :
    (NodeStageVolume w req s).trace.take 4 =
      [Event.IsLikelyNotMountPoint req.StagingTargetPath false none,
       Event.MakeDir req.StagingTargetPath none,
       Event.ReadDir req.StagingTargetPath (some re),
       Event.Unmount req.StagingTargetPath (w.Unmount req.StagingTargetPath s3).1] ∧
    (beforeExec (NodeStageVolume w req s).trace).countP Event.isUnmount = 1 ∧
    (NodeStageVolume w req s).trace.countP Event.isExec ≤ 1 ∧
    (∀ ue, (w.Unmount req.StagingTargetPath s3).1 = some ue →
      NodeStageVolume w req s =
        ⟨(none, some ue), (w.Unmount req.StagingTargetPath s3).2,
         [Event.IsLikelyNotMountPoint req.StagingTargetPath false none,
          Event.MakeDir req.StagingTargetPath none,
          Event.ReadDir req.StagingTargetPath (some re),
          Event.Unmount req.StagingTargetPath (some ue)]⟩ ∧
      (NodeStageVolume w req s).trace.countP Event.isExec = 0) := by
  have hc2 : req.VolumeCapability.isNone = false := by
    cases hcap : req.VolumeCapability with
    | none => exact absurd hcap hc
    | some c => rfl
  rw [NodeStageVolume_eq]
  simp only [Eff.bind_run, Eff.pure_run, Eff.ite_run, mounter.IsLikelyNotMountPoint,
    mounter.MakeDir, mounter.Unmount, ioutil.ReadDir, Eff.call_run, beq_iff_eq,
    len_eq_zero_iff]
  rcases h4 : w.Unmount req.StagingTargetPath s3 with ⟨ue, s4⟩
  cases ue with
  | some ue =>
    simp [hv, ht, hc2, hprobe, hmk, hls, h4, Out.after, os.IsNotExist, beforeExec,
      List.takeWhile, Event.isExec, Event.isUnmount]
  | none =>
    simp only [hv, ht, hc2, hprobe, hmk, hls, h4, Out.after, os.IsNotExist, if_false,
      Option.isSome_none, Bool.false_and, Bool.false_eq_true, Bool.not_false, if_true,
      Option.isNone_some, Option.isSome_some, List.nil_append, List.cons_append,
      List.append_nil]
    rcases mountStep_spec w req s4 with ⟨v, a, c, ac, e1, htr, hval⟩ |
      ⟨v, a, c, ac, args, env1, out1, htr, hval⟩ |
      ⟨v, a, c, ac, args, env1, out1, e1, post, htr, hval, hpost⟩
    · rw [htr]
      simp [beforeExec, List.takeWhile, Event.isExec, Event.isUnmount]
    · rw [htr]
      simp [beforeExec, List.takeWhile, Event.isExec, Event.isUnmount]
    · rw [htr]
      have hno := cleanupShape_no_exec _ _ hpost
      have hcnt : List.countP Event.isExec post = 0 := by
        rw [List.countP_eq_zero]
        intro x hx
        simp [hno x hx]
      simp [beforeExec, List.takeWhile, Event.isExec, Event.isUnmount, List.countP_cons, hcnt]

/-- The same at the stale world, where `Unmount` and the mount executable succeed. -/
theorem stage_stale_recovery_example :
    stageReq.VolumeId ≠ "" ∧ stageReq.StagingTargetPath ≠ "" ∧
    stageReq.VolumeCapability ≠ none ∧
    staleWorld.IsLikelyNotMountPoint stageReq.StagingTargetPath () = ((false, none), ()) ∧
    staleWorld.MakeDir stageReq.StagingTargetPath () = (none, ()) ∧
    staleWorld.ReadDir stageReq.StagingTargetPath () = (some EIO, ()) ∧
    (beforeExec (NodeStageVolume staleWorld stageReq ()).trace).countP Event.isUnmount = 1 :=
  ⟨by decide, by decide, by decide, rfl, rfl, rfl,
   (stage_stale_recovery_when_makedir_succeeds staleWorld stageReq () () () () EIO
      (by decide) (by decide) (by decide) rfl rfl rfl).2.1⟩

/-- The order of the calls on a stale mount, whatever `MakeDir` answers: for a
complete request, if the probe reports a mount point and listing the directory
fails, an executable is run at most once and, when one is run, exactly one
`Unmount` was called before it; when `MakeDir` fails there is neither an
`Unmount` nor a run. -/
theorem stage_stale_unmount_precedes_exec {σ : Type} (w : World σ)
    (req : NodeStageVolumeRequest) (s s1 : σ)
    (hv : req.VolumeId ≠ "") (ht : req.StagingTargetPath ≠ "")
    (hc : req.VolumeCapability ≠ none)
    (hprobe : w.IsLikelyNotMountPoint req.StagingTargetPath s = ((false, none), s1))
    (hls : (w.ReadDir req.StagingTargetPath (w.MakeDir req.StagingTargetPath s1).2).1.isSome
      = true) :
    (NodeStageVolume w req s).trace.countP Event.isExec ≤ 1 ∧
    ((NodeStageVolume w req s).trace.countP Event.isExec = 1 →
      (beforeExec (NodeStageVolume w req s).trace).countP Event.isUnmount = 1) ∧
    ((w.MakeDir req.StagingTargetPath s1).1.isSome = true →
      (NodeStageVolume w req s).trace.countP Event.isUnmount = 0 ∧
      (NodeStageVolume w req s).trace.countP Event.isExec = 0) := by
  rcases hmk : w.MakeDir req.StagingTargetPath s1 with ⟨me, s2⟩
  rw [hmk] at hls
  cases me with
  | some e =>
    have hc2 : req.VolumeCapability.isNone = false := by
      cases hcap : req.VolumeCapability with
      | none => exact absurd hcap hc
      | some c => rfl
    rw [NodeStageVolume_eq]
    simp only [Eff.bind_run, Eff.pure_run, Eff.ite_run, mounter.IsLikelyNotMountPoint,
      mounter.MakeDir, mounter.Unmount, ioutil.ReadDir, Eff.call_run, beq_iff_eq,
      len_eq_zero_iff]
    simp [hv, ht, hc2, hprobe, hmk, Out.after, os.IsNotExist, Event.isExec, Event.isUnmount]
  | none =>
    rcases hrd : w.ReadDir req.StagingTargetPath s2 with ⟨re, s3⟩
    rw [hrd] at hls
    cases re with
    | none => simp at hls
    | some re =>
      have h := stage_stale_recovery_when_makedir_succeeds w req s s1 s2 s3 re hv ht hc
        hprobe hmk hrd
      exact ⟨h.2.2.1, fun _ => h.2.1, fun hme => by simp at hme⟩

/-! ## C4: the error returned after a failed mount -/

/-- C4. First, for every run of `NodeStageVolume` in which an executable
returned a failure: that executable is `goofys` and it is the only one run; the
value returned is the nil response with the mount error built from the
executable's error and its captured output; and the calls made after the
failure have one of the six shapes of `cleanupShape`.

Second, in terms of the answers of the world: let a complete request reach the
resolver in state `sR` (`stagePrefix`), let the resolver succeed and let
`goofys` fail with `e` after printing `output`, leaving the world in state
`s4`.  Then the value returned is the mount error whatever the later calls
answer; the run is the calls up to the failure followed by the clean-up; the
clean-up starts with the probe of the staging path in state `s4`; the number of
`Unmount` calls after the failure is one if that probe answers "mounted"
without an error and zero otherwise; and in the first case the call after the
probe is `Unmount` of the staging path in the state the probe left. -/
theorem C4_mount_error_returned {σ : Type} (w : World σ) (req : NodeStageVolumeRequest)
    (s : σ) :
    (∀ (name : String) (arg env : List String) (output : String) (e : GoError),
      Event.CombinedOutput name arg env output (some e) ∈ (NodeStageVolume w req s).trace →
      name = "goofys" ∧
      (NodeStageVolume w req s).trace.countP Event.isExec = 1 ∧
      (NodeStageVolume w req s).val = (none, some (mountFailed e output)) ∧
      cleanupShape req.StagingTargetPath (afterExec (NodeStageVolume w req s).trace) ∧
      (afterExec (NodeStageVolume w req s).trace).countP Event.isUnmount =
        (if (afterExec (NodeStageVolume w req s).trace).head? =
            some (Event.IsLikelyNotMountPoint req.StagingTargetPath false none)
         then 1 else 0)) ∧
    (∀ (pre : List Event) (sR sE s4 : σ) (acct : StorageAccount) (output : String)
      (e : GoError),
      req.VolumeId ≠ "" → req.StagingTargetPath ≠ "" → req.VolumeCapability ≠ none →
      stagePrefix w req.StagingTargetPath s sR pre →
      w.getStorageAccountAndContainer req.VolumeId req.VolumeContext req.Secrets sR
        = ((acct, none), sE) →
      w.CombinedOutput "goofys"
        (goofysArgs (MountVolume.GetMountFlags (VolumeCapability.GetMount req.VolumeCapability))
          acct.containerName acct.accountName req.StagingTargetPath)
        (w.Environ sE ++ ["AZURE_STORAGE_ACCOUNT=" ++ acct.accountName]
          ++ ["AZURE_STORAGE_KEY=" ++ acct.accountKey]) sE = ((output, some e), s4) →
      (NodeStageVolume w req s).val = (none, some (mountFailed e output)) ∧
      (NodeStageVolume w req s).trace =
        pre ++
        [Event.getStorageAccountAndContainer req.VolumeId req.VolumeContext req.Secrets
            acct none,
         Event.CombinedOutput "goofys"
          (goofysArgs (MountVolume.GetMountFlags (VolumeCapability.GetMount req.VolumeCapability))
            acct.containerName acct.accountName req.StagingTargetPath)
          (w.Environ sE ++ ["AZURE_STORAGE_ACCOUNT=" ++ acct.accountName]
            ++ ["AZURE_STORAGE_KEY=" ++ acct.accountKey]) output (some e)] ++
        afterExec (NodeStageVolume w req s).trace ∧
      (afterExec (NodeStageVolume w req s).trace).head? =
        some (Event.IsLikelyNotMountPoint req.StagingTargetPath
          (w.IsLikelyNotMountPoint req.StagingTargetPath s4).1.1
          (w.IsLikelyNotMountPoint req.StagingTargetPath s4).1.2) ∧
      (afterExec (NodeStageVolume w req s).trace).countP Event.isUnmount =
        (if (w.IsLikelyNotMountPoint req.StagingTargetPath s4).1 = (false, none)
         then 1 else 0) ∧
      ((w.IsLikelyNotMountPoint req.StagingTargetPath s4).1 = (false, none) →
        (afterExec (NodeStageVolume w req s).trace).take 2 =
          [Event.IsLikelyNotMountPoint req.StagingTargetPath false none,
           Event.Unmount req.StagingTargetPath
            (w.Unmount req.StagingTargetPath
              (w.IsLikelyNotMountPoint req.StagingTargetPath s4).2).1])) := by
  constructor
  · intro name arg env output e h
    rcases stage_exec_failed w req s name arg env output e h with
      ⟨pre, post, htr, hpre, hpost, hval, hname⟩
    have hpre1 : ∀ x ∈ pre, x.isExec = false := fun x hx => (hpre x hx).1
    have hafter : afterExec (NodeStageVolume w req s).trace = post := by
      rw [htr]; exact afterExec_append pre post _ hpre1 rfl
    have hcpre : List.countP Event.isExec pre = 0 := by
      rw [List.countP_eq_zero]
      intro x hx
      simp [hpre1 x hx]
    have hcpost : List.countP Event.isExec post = 0 := by
      rw [List.countP_eq_zero]
      intro x hx
      simp [cleanupShape_no_exec _ _ hpost x hx]
    refine ⟨hname, ?_, hval, ?_, ?_⟩
    · rw [htr]
      simp [List.countP_cons, hcpre, hcpost, Event.isExec]
    · rw [hafter]; exact hpost
    · rw [hafter]
      rcases hpost with ⟨nm, e, rfl⟩ | ⟨r, rfl⟩ | ⟨e, rfl⟩ | ⟨nm, e, rfl⟩ | rfl | ⟨r, rfl⟩ <;>
        simp [Event.isUnmount]
  · intro pre sR sE s4 acct output e hv ht hc hpre hres hexec
    have hrun := stage_reach w req s sR pre hv ht hc hpre
    rw [mountStep_exec_failed w req sR sE s4 acct output e hres hexec] at hrun
    have hcw := cleanup_world w req.StagingTargetPath (mountFailed e output) s4
    have hnoexec : ∀ x ∈ pre ++ [Event.getStorageAccountAndContainer req.VolumeId
        req.VolumeContext req.Secrets acct none], x.isExec = false := by
      rcases hpre with ⟨pe, s1, _, _, _, rfl⟩ | ⟨pe, s1, s2, re, s3, _, _, _, _, _, rfl⟩ <;>
        simp [Event.isExec]
    have htrace : (NodeStageVolume w req s).trace =
        (pre ++ [Event.getStorageAccountAndContainer req.VolumeId req.VolumeContext
          req.Secrets acct none]) ++
        Event.CombinedOutput "goofys"
          (goofysArgs (MountVolume.GetMountFlags (VolumeCapability.GetMount req.VolumeCapability))
            acct.containerName acct.accountName req.StagingTargetPath)
          (w.Environ sE ++ ["AZURE_STORAGE_ACCOUNT=" ++ acct.accountName]
            ++ ["AZURE_STORAGE_KEY=" ++ acct.accountKey]) output (some e) ::
        (NodeStageVolume.cleanup w req.StagingTargetPath (mountFailed e output) s4).trace := by
      rw [hrun]
      simp [Out.after]
    have hafter : afterExec (NodeStageVolume w req s).trace =
        (NodeStageVolume.cleanup w req.StagingTargetPath (mountFailed e output) s4).trace := by
      rw [htrace]
      exact afterExec_append _ _ _ hnoexec rfl
    have hval : (NodeStageVolume w req s).val = (none, some (mountFailed e output)) := by
      rw [hrun]
      simpa [Out.after] using hcw.1
    refine ⟨hval, ?_, ?_, ?_, ?_⟩
    · rw [hafter, htrace]
      simp
    · rw [hafter]; exact hcw.2.1
    · rw [hafter]; exact hcw.2.2.1
    · rw [hafter]; exact hcw.2.2.2

/-- C4 in the world where the failing mount executable leaves the path mounted:
the probe after the failure answers "mounted", and exactly one rollback
`Unmount` follows; the error returned is the mount error. -/
theorem C4_mount_error_returned_witness :
    stageReq.VolumeId ≠ "" ∧ stageReq.StagingTargetPath ≠ "" ∧
    stageReq.VolumeCapability ≠ none ∧
    stagePrefix partialMountWorld stageReq.StagingTargetPath false false
      [Event.IsLikelyNotMountPoint "/stage" true none, Event.MakeDir "/stage" none] ∧
    partialMountWorld.getStorageAccountAndContainer stageReq.VolumeId stageReq.VolumeContext
      stageReq.Secrets false = ((acct, none), false) ∧
    partialMountWorld.CombinedOutput "goofys"
      (goofysArgs (MountVolume.GetMountFlags (VolumeCapability.GetMount
        stageReq.VolumeCapability)) acct.containerName acct.accountName
        stageReq.StagingTargetPath)
      (partialMountWorld.Environ false ++ ["AZURE_STORAGE_ACCOUNT=" ++ acct.accountName]
        ++ ["AZURE_STORAGE_KEY=" ++ acct.accountKey]) false = (("boom", some EIO), true) ∧
    (partialMountWorld.IsLikelyNotMountPoint stageReq.StagingTargetPath true).1
      = (false, none) ∧
    (NodeStageVolume partialMountWorld stageReq false).val
      = (none, some (mountFailed EIO "boom")) ∧
    (afterExec (NodeStageVolume partialMountWorld stageReq false).trace).countP Event.isUnmount =
      (if (partialMountWorld.IsLikelyNotMountPoint stageReq.StagingTargetPath true).1
          = (false, none) then 1 else 0) ∧
    (NodeStageVolume partialMountWorld stageReq false).trace =
      [Event.IsLikelyNotMountPoint "/stage" true none,
       Event.MakeDir "/stage" none,
       Event.getStorageAccountAndContainer "v1" [] [] acct none,
       Event.CombinedOutput "goofys"
         ["--uid=1000wasb://cont@acct.blob.core.windows.net", "/stage"]
         ["AZURE_STORAGE_ACCOUNT=acct", "AZURE_STORAGE_KEY=key"] "boom" (some EIO),
       Event.IsLikelyNotMountPoint "/stage" false none,
       Event.Unmount "/stage" none,
       Event.IsLikelyNotMountPoint "/stage" true none,
       Event.Remove "/stage" none] :=
  ⟨by decide, by decide, by decide,
   Or.inl ⟨none, false, rfl, rfl, rfl, rfl⟩, rfl, rfl, rfl,
   ((C4_mount_error_returned partialMountWorld stageReq false).2
      [Event.IsLikelyNotMountPoint "/stage" true none, Event.MakeDir "/stage" none]
      false false true acct "boom" EIO (by decide) (by decide) (by decide)
      (Or.inl ⟨none, false, rfl, rfl, rfl, rfl⟩) rfl rfl).1,
   ((C4_mount_error_returned partialMountWorld stageReq false).2
      [Event.IsLikelyNotMountPoint "/stage" true none, Event.MakeDir "/stage" none]
      false false true acct "boom" EIO (by decide) (by decide) (by decide)
      (Or.inl ⟨none, false, rfl, rfl, rfl, rfl⟩) rfl rfl).2.2.2.1,
   rfl⟩

/-! ## C5: `NodePublishVolume` when the bind mount fails -/

/-- C5. For a complete publish request, if `ensureMountPoint` succeeds and the
bind `Mount` fails, the run ends with that `Mount` followed by one `os.Remove`
of the target, the only removal of the run.  If the removal fails the error
returned is the `Internal` error reporting the removal failure; if it succeeds
the error returned is the `Internal` error reporting the mount failure, with
the source and the target in its message.  The two errors differ, and the
response is nil in both cases. -/
theorem C5_publish_cleanup_on_mount_failure {σ : Type} (w : World σ)
    (req : NodePublishVolumeRequest) (s s1 s2 : σ) (t1 : List Event) (e : GoError)
    (hc : req.VolumeCapability ≠ none) (hv : req.VolumeId ≠ "") (ht : req.TargetPath ≠ "")
    (hs : req.StagingTargetPath ≠ "")
    (hE : ensureMountPoint w req.TargetPath s = ⟨none, s1, t1⟩)
    (hM : w.Mount req.StagingTargetPath req.TargetPath "" (publishOptions req) s1
      = (some e, s2)) :
    (NodePublishVolume w req s).trace =
      t1 ++ [Event.Mount req.StagingTargetPath req.TargetPath "" (publishOptions req) (some e),
             Event.Remove req.TargetPath (w.Remove req.TargetPath s2).1] ∧
    (NodePublishVolume w req s).trace.countP Event.isRemove = 1 ∧
    (∀ removeErr, (w.Remove req.TargetPath s2).1 = some removeErr →
      (NodePublishVolume w req s).val =
        (none, some (status.Error Code.Internal
          ("Could not remove mount target " ++ w.quote req.TargetPath ++ ": "
            ++ removeErr.text))) ∧
      (NodePublishVolume w req s).val ≠
        (none, some (status.Error Code.Internal
          ("Could not mount " ++ w.quote req.StagingTargetPath ++ " at "
            ++ w.quote req.TargetPath ++ ": " ++ e.text)))) ∧
    ((w.Remove req.TargetPath s2).1 = none →
      (NodePublishVolume w req s).val =
        (none, some (status.Error Code.Internal
          ("Could not mount " ++ w.quote req.StagingTargetPath ++ " at "
            ++ w.quote req.TargetPath ++ ": " ++ e.text)))) ∧
    (NodePublishVolume w req s).val.1 = none ∧
    (∃ err, (NodePublishVolume w req s).val.2 = some err ∧ err.code = Code.Internal) := by
  have hshape := ensure_spec w req.TargetPath s
  rw [hE] at hshape
  have hcnt := (ensureShape_counts _ _ _ hshape).2.2.1
  rw [publish_run w req s hc hv ht hs, hE]
  simp only [hM]
  rcases hR : w.Remove req.TargetPath s2 with ⟨re, s3⟩
  cases re with
  | none => simp [Out.after, List.countP_cons, hcnt, Event.isRemove, status.Error]
  | some removeErr =>
    have hne := remove_error_ne_mount_error (w.quote req.TargetPath)
      (w.quote req.StagingTargetPath) removeErr.text e.text
    simp [Out.after, List.countP_cons, hcnt, Event.isRemove, hne]
    simp [status.Error]

/-- C5 at a world in which nothing is mounted, `Mount` fails and the removal succeeds. -/
theorem C5_publish_cleanup_on_mount_failure_witness :
    publishReq.VolumeCapability ≠ none ∧ publishReq.VolumeId ≠ "" ∧
    publishReq.TargetPath ≠ "" ∧ publishReq.StagingTargetPath ≠ "" ∧
    ensureMountPoint mountFailsWorld publishReq.TargetPath () =
      ⟨none, (), [Event.IsLikelyNotMountPoint "/target" true none,
                  Event.MakeDir "/target" none]⟩ ∧
    mountFailsWorld.Mount publishReq.StagingTargetPath publishReq.TargetPath ""
      (publishOptions publishReq) () = (some EIO, ()) ∧
    (NodePublishVolume mountFailsWorld publishReq ()).trace =
      [Event.IsLikelyNotMountPoint "/target" true none, Event.MakeDir "/target" none] ++
      [Event.Mount publishReq.StagingTargetPath publishReq.TargetPath ""
          (publishOptions publishReq) (some EIO),
       Event.Remove publishReq.TargetPath
          (mountFailsWorld.Remove publishReq.TargetPath ()).1] :=
  ⟨by decide, by decide, by decide, by decide, rfl, rfl,
   (C5_publish_cleanup_on_mount_failure mountFailsWorld publishReq () () ()
      [Event.IsLikelyNotMountPoint "/target" true none, Event.MakeDir "/target" none] EIO
      (by decide) (by decide) (by decide) (by decide) rfl rfl).1⟩

/-! ## C6: `NodeUnstageVolume` and `NodeUnpublishVolume` -/

/-- C6. For a request with a volume id and a path, `NodeUnstageVolume` and
`NodeUnpublishVolume` make exactly one call, `Unmount` of the requested path
(so no probe, no `MakeDir`, no `Mount`); they return the empty success response
if and only if that `Unmount` succeeds, and otherwise a nil response with an
error of code `Internal` whose text ends with the text of the `Unmount` error. -/
theorem C6_unmount_once {σ : Type} (w : World σ) (s : σ) :
    (∀ req : NodeUnstageVolumeRequest, req.VolumeId ≠ "" → req.StagingTargetPath ≠ "" →
      (NodeUnstageVolume w req s).trace =
        [Event.Unmount req.StagingTargetPath (w.Unmount req.StagingTargetPath s).1] ∧
      (NodeUnstageVolume w req s).state = (w.Unmount req.StagingTargetPath s).2 ∧
      ((NodeUnstageVolume w req s).val = (some {}, none) ↔
        (w.Unmount req.StagingTargetPath s).1 = none) ∧
      (∀ e, (w.Unmount req.StagingTargetPath s).1 = some e →
        ∃ err pre, (NodeUnstageVolume w req s).val = (none, some err) ∧
          err.code = Code.Internal ∧ err.text = pre ++ e.text)) ∧
    (∀ req : NodeUnpublishVolumeRequest, req.VolumeId ≠ "" → req.TargetPath ≠ "" →
      (NodeUnpublishVolume w req s).trace =
        [Event.Unmount req.TargetPath (w.Unmount req.TargetPath s).1] ∧
      (NodeUnpublishVolume w req s).state = (w.Unmount req.TargetPath s).2 ∧
      ((NodeUnpublishVolume w req s).val = (some {}, none) ↔
        (w.Unmount req.TargetPath s).1 = none) ∧
      (∀ e, (w.Unmount req.TargetPath s).1 = some e →
        ∃ err pre, (NodeUnpublishVolume w req s).val = (none, some err) ∧
          err.code = Code.Internal ∧ err.text = pre ++ e.text)) := by
  constructor
  · intro req hv ht
    unfold NodeUnstageVolume
    simp only [Eff.bind_run, Eff.pure_run, Eff.ite_run, beq_iff_eq, len_eq_zero_iff, hv, ht,
      if_false, mounter.Unmount, Eff.call_run]
    rcases hU : w.Unmount req.StagingTargetPath s with ⟨ue, s1⟩
    cases ue with
    | none => simp [Out.after, Eff.pure_run]
    | some e =>
      simp only [Out.after, Eff.pure_run]
      refine ⟨by simp, trivial, by simp, ?_⟩
      intro e2 he2
      injection he2 with he2
      subst he2
      exact ⟨_, "rpc error: code = " ++ Code.Internal.String ++ " desc = "
        ++ ("Could not unmount target " ++ w.quote req.StagingTargetPath ++ ": "),
        rfl, rfl, by simp [status.Error, String.append_assoc]⟩
  · intro req hv ht
    unfold NodeUnpublishVolume
    simp only [Eff.bind_run, Eff.pure_run, Eff.ite_run, beq_iff_eq, len_eq_zero_iff, hv, ht,
      if_false, mounter.Unmount, Eff.call_run]
    rcases hU : w.Unmount req.TargetPath s with ⟨ue, s1⟩
    cases ue with
    | none => simp [Out.after, Eff.pure_run]
    | some e =>
      simp only [Out.after, Eff.pure_run]
      refine ⟨by simp, trivial, by simp, ?_⟩
      intro e2 he2
      injection he2 with he2
      subst he2
      exact ⟨_, "rpc error: code = " ++ Code.Internal.String ++ " desc = ", rfl, rfl, rfl⟩

/-- C6 at an unstage request in a world where `Unmount` fails. -/
theorem C6_unmount_once_witness :
    unstageReq.VolumeId ≠ "" ∧ unstageReq.StagingTargetPath ≠ "" ∧
    (NodeUnstageVolume unmountFailsWorld unstageReq ()).trace =
      [Event.Unmount unstageReq.StagingTargetPath
        (unmountFailsWorld.Unmount unstageReq.StagingTargetPath ()).1] :=
  ⟨by decide, by decide,
   ((C6_unmount_once unmountFailsWorld ()).1 unstageReq (by decide) (by decide)).1⟩

/-! ## C7: the arguments of the mount executable -/

/-- C7, at the flag list `["--uid=1000"]`. `strings.TrimSpace` removes the
blank that the loop put after the last flag, so the endpoint is glued to that
flag: the executable gets two arguments where the claim has three.  With no
flag at all the arguments are the endpoint and the staging path, as claimed. -/
theorem C7_endpoint_glued_to_last_flag :
    goofysArgs ["--uid=1000"] "cont" "acct" "/stage" =
      ["--uid=1000wasb://cont@acct.blob.core.windows.net", "/stage"] ∧
    goofysArgs ["--uid=1000"] "cont" "acct" "/stage" ≠
      ["--uid=1000"] ++ ["wasb://cont@acct.blob.core.windows.net", "/stage"] ∧
    (NodeStageVolume freshWorld stageReq ()).trace =
      [Event.IsLikelyNotMountPoint "/stage" true none,
       Event.MakeDir "/stage" none,
       Event.getStorageAccountAndContainer "v1" [] [] acct none,
       Event.CombinedOutput "goofys"
         ["--uid=1000wasb://cont@acct.blob.core.windows.net", "/stage"]
         ["AZURE_STORAGE_ACCOUNT=acct", "AZURE_STORAGE_KEY=key"] "" none] ∧
    (NodeStageVolume freshWorld stageReqNoFlags ()).trace =
      [Event.IsLikelyNotMountPoint "/var/lib/stage/v1" true none,
       Event.MakeDir "/var/lib/stage/v1" none,
       Event.getStorageAccountAndContainer "v1" [] [] acct none,
       Event.CombinedOutput "goofys"
         ["wasb://cont@acct.blob.core.windows.net", "/var/lib/stage/v1"]
         ["AZURE_STORAGE_ACCOUNT=acct", "AZURE_STORAGE_KEY=key"] "" none] :=
  ⟨by decide, by decide, rfl, rfl⟩

/-! ## C8: `Unmount` in `NodePublishVolume` -/

/-- C8, counterexample. On a target that the probe reports as a mount point and
whose listing fails, `NodePublishVolume` does invoke `Unmount`: it is the third
call of `ensureMountPoint`. -/
theorem C8_counterexample :
    (NodePublishVolume staleWorld publishReq ()).trace =
      [Event.IsLikelyNotMountPoint "/target" false none,
       Event.ReadDir "/target" (some EIO),
       Event.Unmount "/target" none,
       Event.MakeDir "/target" none,
       Event.Mount "/stage" "/target" "" ["bind"] none] ∧
    (NodePublishVolume staleWorld publishReq ()).trace.countP Event.isUnmount ≠ 0 :=
  ⟨rfl, by decide⟩

/-- C8, amended. `NodePublishVolume` has a stale-mount recovery, the one of
`ensureMountPoint`.  In every run it calls `Unmount` at most once, `Mount` at
most once, `os.Remove` at most once and only after a failed `Mount`, and it
runs no executable and never calls the resolver.  Every `Unmount` it makes is
of the target and is its third call, after a probe that reported a mount point
and a listing that failed.  Conversely, for a complete request, when the probe
reports a mount point without an error other than "does not exist" and the
listing fails, the third call is `Unmount` of the target. -/
theorem C8_publish_unmount_only_on_stale {σ : Type} (w : World σ)
    (req : NodePublishVolumeRequest) (s : σ) :
    ((NodePublishVolume w req s).trace.countP Event.isUnmount ≤ 1 ∧
     (NodePublishVolume w req s).trace.countP Event.isMount ≤ 1 ∧
     (NodePublishVolume w req s).trace.countP Event.isRemove ≤ 1 ∧
     (NodePublishVolume w req s).trace.countP Event.isExec = 0 ∧
     (NodePublishVolume w req s).trace.countP Event.isResolve = 0 ∧
     ((NodePublishVolume w req s).trace.countP Event.isRemove = 1 →
       ∃ e, Event.Mount req.StagingTargetPath req.TargetPath "" (publishOptions req) (some e)
         ∈ (NodePublishVolume w req s).trace) ∧
     (∀ t r, Event.Unmount t r ∈ (NodePublishVolume w req s).trace →
       t = req.TargetPath ∧
       ∃ pe re, (NodePublishVolume w req s).trace.take 3 =
         [Event.IsLikelyNotMountPoint req.TargetPath false pe,
          Event.ReadDir req.TargetPath (some re),
          Event.Unmount req.TargetPath r])) ∧
    (req.VolumeCapability ≠ none → req.VolumeId ≠ "" → req.TargetPath ≠ "" →
      req.StagingTargetPath ≠ "" →
      ∀ pe s1 re s2,
        w.IsLikelyNotMountPoint req.TargetPath s = ((false, pe), s1) →
        (pe.isSome && !os.IsNotExist pe) = false →
        w.ReadDir req.TargetPath s1 = (some re, s2) →
        (NodePublishVolume w req s).trace.take 3 =
          [Event.IsLikelyNotMountPoint req.TargetPath false pe,
           Event.ReadDir req.TargetPath (some re),
           Event.Unmount req.TargetPath (w.Unmount req.TargetPath s2).1]) := by
  by_cases hcomplete : req.VolumeCapability ≠ none ∧ req.VolumeId ≠ "" ∧ req.TargetPath ≠ "" ∧
      req.StagingTargetPath ≠ ""
  · obtain ⟨hc, hv, ht, hs⟩ := hcomplete
    have hrun := publish_run w req s hc hv ht hs
    have hshape := ensure_spec w req.TargetPath s
    refine ⟨?_, ?_⟩
    · rw [hrun]
      rcases hE : ensureMountPoint w req.TargetPath s with ⟨v, s1, t1⟩
      rw [hE] at hshape
      dsimp only at hshape
      rcases hM : w.Mount req.StagingTargetPath req.TargetPath "" (publishOptions req) s1
        with ⟨me, s2⟩
      rcases hR : w.Remove req.TargetPath s2 with ⟨rme, s3⟩
      simp only [hM]
      rcases hshape with ⟨nm, e, rfl, rfl⟩ | ⟨pe, rfl, rfl⟩ | ⟨pe, re, ue, rfl, rfl⟩ |
        ⟨pe, re, r, rfl, rfl⟩ | ⟨pe, r, rfl, rfl⟩
      · simp [Out.after, Event.isUnmount, Event.isMount, Event.isRemove, Event.isExec,
          Event.isResolve]
      · cases me <;> cases rme <;>
          simp [Out.after, Event.isUnmount, Event.isMount, Event.isRemove, Event.isExec,
            Event.isResolve, hR]
      · simp [Out.after, Event.isUnmount, Event.isMount, Event.isRemove, Event.isExec,
          Event.isResolve]
      · cases v <;> cases me <;> cases rme <;>
          simp [Out.after, Event.isUnmount, Event.isMount, Event.isRemove, Event.isExec,
            Event.isResolve, hR]
      · cases v <;> cases me <;> cases rme <;>
          simp [Out.after, Event.isUnmount, Event.isMount, Event.isRemove, Event.isExec,
            Event.isResolve, hR]
    · intro _ _ _ _ pe s1 re s2 h1 hp h2
      rcases ensure_stale w req.TargetPath s s1 s2 pe re h1 hp h2 with ⟨rest, hrest⟩
      rw [hrun, hrest]
      simp [Out.after]
  · have hmiss : req.VolumeCapability = none ∨ req.VolumeId = "" ∨ req.TargetPath = "" ∨
        req.StagingTargetPath = "" := by
      by_contra hcon
      simp only [not_or] at hcon
      exact hcomplete ⟨hcon.1, hcon.2.1, hcon.2.2.1, hcon.2.2.2⟩
    rcases publish_incomplete w req s hmiss with ⟨e, he, _⟩
    rw [he]
    refine ⟨by simp, ?_⟩
    intro hc hv ht hs
    exact absurd ⟨hc, hv, ht, hs⟩ hcomplete

/-- C8 amended, at the stale world: the third call is the `Unmount` of the target. -/
theorem C8_publish_unmount_only_on_stale_witness :
    publishReq.VolumeCapability ≠ none ∧ publishReq.VolumeId ≠ "" ∧
    publishReq.TargetPath ≠ "" ∧ publishReq.StagingTargetPath ≠ "" ∧
    staleWorld.IsLikelyNotMountPoint publishReq.TargetPath () = ((false, none), ()) ∧
    ((none : Option GoError).isSome && !os.IsNotExist none) = false ∧
    staleWorld.ReadDir publishReq.TargetPath () = (some EIO, ()) ∧
    (NodePublishVolume staleWorld publishReq ()).trace.take 3 =
      [Event.IsLikelyNotMountPoint publishReq.TargetPath false none,
       Event.ReadDir publishReq.TargetPath (some EIO),
       Event.Unmount publishReq.TargetPath (staleWorld.Unmount publishReq.TargetPath ()).1] :=
  ⟨by decide, by decide, by decide, by decide, rfl, rfl, rfl,
   (C8_publish_unmount_only_on_stale staleWorld publishReq ()).2
      (by decide) (by decide) (by decide) (by decide) none () EIO () rfl rfl rfl⟩

/-! ## C9: the status code of probe and `MakeDir` failures -/

/-- C9, at a probe and at a `MakeDir` that fail with an input/output error.
`NodeStageVolume` returns that very error, whose status code is `Unknown`, not
`Internal`; it runs no executable.  `NodePublishVolume`, in the same two
worlds, wraps the error into one of code `Internal`. -/
theorem C9_stage_returns_error_unwrapped :
    NodeStageVolume probeFailsWorld stageReq () =
      ⟨(none, some EIO), (), [Event.IsLikelyNotMountPoint "/stage" true (some EIO)]⟩ ∧
    NodeStageVolume makeDirFailsWorld stageReq () =
      ⟨(none, some EIO), (),
       [Event.IsLikelyNotMountPoint "/stage" true none, Event.MakeDir "/stage" (some EIO)]⟩ ∧
    EIO.code = Code.Unknown ∧ EIO.code ≠ Code.Internal ∧
    (NodePublishVolume probeFailsWorld publishReq ()).val =
      (none, some (status.Error Code.Internal
        "Could not mount target \"/target\": input/output error")) ∧
    (NodePublishVolume makeDirFailsWorld publishReq ()).val =
      (none, some (status.Error Code.Internal
        "Could not mount target \"/target\": input/output error")) ∧
    (status.Error Code.Internal
        "Could not mount target \"/target\": input/output error").code = Code.Internal :=
  ⟨rfl, rfl, rfl, by decide, by decide, by decide, rfl⟩

/-! ## C10: when the staging directory is removed after a failed mount -/

/-- C10. In every run of `NodeStageVolume` in which the mount executable
failed, the calls made after the failure have one of the six shapes of
`cleanupShape`; `os.Remove` is called at most once in the whole run, and once
exactly when the path is confirmed clean (`confirmedClean`).  If the probe that
follows the failure fails, it is the last call; if the rollback `Unmount`
fails, it is the last call; if the second probe fails or still reports
"mounted", it is the last call. -/
theorem C10_removal_iff_confirmed_clean {σ : Type} (w : World σ)
    (req : NodeStageVolumeRequest) (s : σ)
    (name : String) (arg env : List String) (output : String) (e : GoError)
    (h : Event.CombinedOutput name arg env output (some e) ∈ (NodeStageVolume w req s).trace) :
    cleanupShape req.StagingTargetPath (afterExec (NodeStageVolume w req s).trace) ∧
    (NodeStageVolume w req s).trace.countP Event.isRemove ≤ 1 ∧
    ((NodeStageVolume w req s).trace.countP Event.isRemove = 1 ↔
      confirmedClean req.StagingTargetPath (afterExec (NodeStageVolume w req s).trace)) ∧
    (∀ nm pe, (afterExec (NodeStageVolume w req s).trace).head? =
        some (Event.IsLikelyNotMountPoint req.StagingTargetPath nm (some pe)) →
      afterExec (NodeStageVolume w req s).trace =
        [Event.IsLikelyNotMountPoint req.StagingTargetPath nm (some pe)]) ∧
    (∀ ue, (afterExec (NodeStageVolume w req s).trace).take 2 =
        [Event.IsLikelyNotMountPoint req.StagingTargetPath false none,
         Event.Unmount req.StagingTargetPath (some ue)] →
      afterExec (NodeStageVolume w req s).trace =
        [Event.IsLikelyNotMountPoint req.StagingTargetPath false none,
         Event.Unmount req.StagingTargetPath (some ue)]) ∧
    (∀ nm pe, (afterExec (NodeStageVolume w req s).trace).take 3 =
        [Event.IsLikelyNotMountPoint req.StagingTargetPath false none,
         Event.Unmount req.StagingTargetPath none,
         Event.IsLikelyNotMountPoint req.StagingTargetPath nm pe] →
      pe ≠ none ∨ nm = false →
      afterExec (NodeStageVolume w req s).trace =
        [Event.IsLikelyNotMountPoint req.StagingTargetPath false none,
         Event.Unmount req.StagingTargetPath none,
         Event.IsLikelyNotMountPoint req.StagingTargetPath nm pe]) := by
  rcases stage_exec_failed w req s name arg env output e h with
    ⟨pre, post, htr, hpre, hpost, hval, hname⟩
  have hpre1 : ∀ x ∈ pre, x.isExec = false := fun x hx => (hpre x hx).1
  have hafter : afterExec (NodeStageVolume w req s).trace = post := by
    rw [htr]; exact afterExec_append pre post _ hpre1 rfl
  have hcpre : List.countP Event.isRemove pre = 0 := by
    rw [List.countP_eq_zero]
    intro x hx
    simp [(hpre x hx).2]
  have hcount : (NodeStageVolume w req s).trace.countP Event.isRemove
      = post.countP Event.isRemove := by
    rw [htr]
    simp [List.countP_cons, hcpre, Event.isRemove]
  rw [hafter, hcount]
  refine ⟨hpost, ?_⟩
  rcases hpost with ⟨nm, e, rfl⟩ | ⟨r, rfl⟩ | ⟨e, rfl⟩ | ⟨nm, e, rfl⟩ | rfl | ⟨r, rfl⟩ <;>
    simp [Event.isRemove, confirmedClean]

/-- C10 at a world in which nothing is mounted and the mount executable fails:
the probe after the failure reports "not mounted" and the directory is removed. -/
theorem C10_removal_iff_confirmed_clean_witness :
    Event.CombinedOutput "goofys" ["--uid=1000wasb://cont@acct.blob.core.windows.net", "/stage"]
        ["AZURE_STORAGE_ACCOUNT=acct", "AZURE_STORAGE_KEY=key"] "boom" (some EIO)
      ∈ (NodeStageVolume mountFailsWorld stageReq ()).trace ∧
    ((NodeStageVolume mountFailsWorld stageReq ()).trace.countP Event.isRemove = 1 ↔
      confirmedClean stageReq.StagingTargetPath
        (afterExec (NodeStageVolume mountFailsWorld stageReq ()).trace)) :=
  ⟨by decide,
   (C10_removal_iff_confirmed_clean mountFailsWorld stageReq () "goofys"
      ["--uid=1000wasb://cont@acct.blob.core.windows.net", "/stage"]
      ["AZURE_STORAGE_ACCOUNT=acct", "AZURE_STORAGE_KEY=key"] "boom" EIO (by decide)).2.2.1⟩

end Goofys
